import Mathlib

/-!
Shallow embedding of the FoE (File over EtherCAT) module of this repository,
`src/ec_foe.c`: the blocking transfer functions `ecx_FOEread` and
`ecx_FOEwrite` are translated into deterministic interpreters that consume a
script of mailbox-layer responses (one entry per `ecx_mbxreceive` call inside
the loop and one work-counter entry per `ecx_mbxsend` call) and record an
observable trace of buffer-pool events, composed packets handed to the
transport, caller-buffer copies and progress-hook invocations.

The mailbox transport itself (`ecx_mbxreceive`, `ecx_mbxsend`, `ecx_getmbx`,
`ecx_dropmbx`, `ec_nextmbxcnt`) is code of this repository that is not under
`src/`; it is modelled from the spec's contract (spec section 6): a receive
either fails (work counter at most 0, modelled 0) or delivers a filled buffer
with a positive work counter (modelled 1, only the sign is ever tested); a
send consumes the buffer exactly when its work counter is positive; the
counter rule is `(prev mod 7) + 1`.
-/

/-- Modelled from the spec: FoE low-nibble mailbox type, spec section 6
(`type low-nibble = FoE (0x0C per EtherCAT standard)`); the constant lives in
the repository headers outside `src/`. Only its agreement between composed
packets and the receive-side check `(mbxtype & 0x0f) == ECT_MBXT_FOE`
matters. -/
def ECT_MBXT_FOE : Nat := 12

/-- FoE opcode READ (spec section 3). -/
def ECT_FOE_READ : Nat := 1

/-- FoE opcode WRITE (spec section 3). -/
def ECT_FOE_WRITE : Nat := 2

/-- FoE opcode DATA (spec section 3). -/
def ECT_FOE_DATA : Nat := 3

/-- FoE opcode ACK (spec section 3). -/
def ECT_FOE_ACK : Nat := 4

/-- FoE opcode ERROR (spec section 3). -/
def ECT_FOE_ERROR : Nat := 5

/-- FoE opcode BUSY (spec section 3). -/
def ECT_FOE_BUSY : Nat := 6

/-- Modelled from the spec: error sentinel for `PACKET_ERROR` (spec section
7); the numeric values live in headers outside `src/`, only distinctness and
the negation at the use sites matter. -/
def EC_ERR_TYPE_PACKET_ERROR : Int := 3

/-- Modelled from the spec: error sentinel for `FOE_ERROR` (spec section 7). -/
def EC_ERR_TYPE_FOE_ERROR : Int := 5

/-- Modelled from the spec: error sentinel for `FOE_BUF2SMALL` (spec
section 7). -/
def EC_ERR_TYPE_FOE_BUF2SMALL : Int := 6

/-- Modelled from the spec: error sentinel for `FOE_PACKETNUMBER` (spec
section 7). -/
def EC_ERR_TYPE_FOE_PACKETNUMBER : Int := 7

/-- Modelled from the spec: error sentinel for `FOE_FILE_NOTFOUND` (spec
section 7). -/
def EC_ERR_TYPE_FOE_FILE_NOTFOUND : Int := 10

/-- Modelled from the spec: `MAX_FOE_DATA = MAX_MBX - (mbx_header_size + 6)`
(spec section 3); with the repository's mailbox bound this is `1486 - 12`.
It only appears in the filename clamp. -/
def EC_MAXFOEDATA : Nat := 1474

/-- Modelled from the spec: `next_mbx_cnt(prev) = ((prev mod 7) + 1)`, i.e.
1..7 wrapping, never 0 (spec section 6); `ec_nextmbxcnt` lives outside
`src/`. -/
def ec_nextmbxcnt (cnt : Nat) : Nat := cnt % 7 + 1

/-- An FoE packet overlaid on a mailbox buffer (`ec_FOEt` in `ec_foe.c`):
mailbox-header `length`, the full `mbxtype` byte (low nibble type, high
nibble session counter), `OpCode`, the four-byte union (`Password`,
`PacketNumber` or `ErrorCode`) as `num`, and the trailing payload bytes. -/
structure FOEt where
  length : Nat
  mbxtype : Nat
  opCode : Nat
  num : Nat
  data : List Nat
deriving Repr, DecidableEq

/-- One scripted outcome of an in-loop `ecx_mbxreceive` call: either failure
(work counter at most 0) or a delivered packet (work counter positive,
normalized to 1 since only the sign is tested by the code). -/
inductive RxEvent where
  | timeout
  | pkt (p : FOEt)
deriving Repr, DecidableEq

/-- Observable trace events of a run: buffer-pool traffic (with buffer ids),
packets handed to `ecx_mbxsend` (with the session counter used and the send's
work counter), the BUSY-resend send that passes the address of the `MbxOut`
pointer variable instead of a buffer (`sendJunk`, line 371 of `ec_foe.c`),
bytes copied into the caller's read buffer (`copy`), and progress-hook
invocations. -/
inductive TEv where
  | getOut (id : Nat)
  | recvIn (id : Nat)
  | recvFail
  | dropIn (id : Nat)
  | dropOut (id : Nat)
  | send (id : Nat) (cnt : Nat) (f : FOEt) (w : Int)
  | sendJunk (cnt : Nat) (f : FOEt) (w : Int)
  | copy (seg : Nat)
  | hook (pn : Nat) (v : Int)
deriving Repr, DecidableEq

/-- What actually reaches the wire at a send: the composed packet for normal
sends, or the reinterpreted pointer bytes for the BUSY-resend slip. -/
inductive WireItem where
  | pkt (f : FOEt)
  | junk
deriving Repr, DecidableEq

/-- Consume the next scripted send work counter; an exhausted script means
all remaining sends succeed with work counter 1. -/
def nextSend : List Int → Int × List Int
  | [] => (1, [])
  | w :: r => (w, r)

/-- Segment size of an incoming DATA packet:
`segmentdata = etohs(length) - 0x0006` on the `uint16` (line 134). -/
def segOf (p : FOEt) : Nat := (p.length + 65530) % 65536

/-- Mutable state of `ecx_FOEread` (locals of the C function plus the
caller-visible cell `*psize`, the bytes landed in the caller's buffer, the
slave's rolling mailbox counter, the send script, the held inbound buffer
and a fresh-id counter for pool buffers). `touched` records whether the
update `*psize = dataread` (line 194) has executed at least once. -/
structure RdCore where
  buffersize : Int
  maxdata : Nat
  dataread : Int
  prevpacket : Nat
  psizeCell : Int
  touched : Bool
  buf : List Nat
  mbx_cnt : Nat
  wkc : Int
  tx : List Int
  inHeld : Option Nat
  nid : Nat
deriving Repr, DecidableEq

/-- The FoE ACK packet composed at lines 145-156 of `ec_foe.c`. -/
def ackPktOf (cnt pn : Nat) : FOEt :=
  { length := 6, mbxtype := ECT_MBXT_FOE + 16 * cnt,
    opCode := ECT_FOE_ACK, num := pn, data := [] }

/-- One iteration body of the read loop after a successful receive of packet
`p` (lines 128-194 of `ec_foe.c`); returns the new state, the trace chunk of
the iteration and the `worktodo` flag. -/
def readIter (st : RdCore) (p : FOEt) : RdCore × List TEv × Bool :=
  let inId := st.nid
  let st0 := { st with nid := st.nid + 1, inHeld := some inId, wkc := 1 }
  if p.mbxtype % 16 = ECT_MBXT_FOE then
    if p.opCode = ECT_FOE_DATA then
      let segmentdata := segOf p
      let packetnumber := p.num
      let prev := st0.prevpacket + 1
      if packetnumber = prev ∧ st0.dataread + (segmentdata : Int) ≤ st0.buffersize then
        let dataread := st0.dataread + (segmentdata : Int)
        let outId := st0.nid
        let cnt := ec_nextmbxcnt st0.mbx_cnt
        let f := ackPktOf cnt packetnumber
        let w := (nextSend st0.tx).1
        let tx1 := (nextSend st0.tx).2
        let wt := if w ≤ 0 then false else (segmentdata == st0.maxdata)
        ({ st0 with prevpacket := prev,
                    buf := st0.buf ++ p.data.take segmentdata,
                    dataread := dataread,
                    nid := st0.nid + 1,
                    mbx_cnt := cnt,
                    tx := tx1,
                    wkc := w,
                    psizeCell := dataread,
                    touched := true },
         [TEv.recvIn inId, TEv.copy segmentdata, TEv.getOut outId,
          TEv.send outId cnt f w, TEv.hook packetnumber dataread],
         wt)
      else
        ({ st0 with prevpacket := prev, wkc := -EC_ERR_TYPE_FOE_BUF2SMALL,
                    psizeCell := st0.dataread, touched := true },
         [TEv.recvIn inId], false)
    else if p.opCode = ECT_FOE_ERROR then
      ({ st0 with wkc := -EC_ERR_TYPE_FOE_ERROR,
                  psizeCell := st0.dataread, touched := true },
       [TEv.recvIn inId], false)
    else
      ({ st0 with wkc := -EC_ERR_TYPE_PACKET_ERROR,
                  psizeCell := st0.dataread, touched := true },
       [TEv.recvIn inId], false)
  else
    ({ st0 with wkc := -EC_ERR_TYPE_PACKET_ERROR,
                psizeCell := st0.dataread, touched := true },
     [TEv.recvIn inId], false)

/-- Drop of a held inbound buffer (`if (MbxIn) ecx_dropmbx(...)`,
lines 122-123 / 198 of `ec_foe.c`). -/
def rdDropIn (st : RdCore) : RdCore × List TEv :=
  match st.inHeld with
  | some i => ({ st with inHeld := none }, [TEv.dropIn i])
  | none => (st, [])

/-- The read do-while loop (lines 119-196 of `ec_foe.c`): each iteration
drops the previous inbound buffer, performs one receive (consuming one
script entry; an exhausted script or a `timeout` entry is a failed receive,
work counter 0) and runs the iteration body while `worktodo` holds. -/
def readLoop : List RxEvent → RdCore → RdCore × List TEv
  | [], st =>
    let s1 := rdDropIn st
    ({ s1.1 with wkc := 0 }, s1.2 ++ [TEv.recvFail])
  | RxEvent.timeout :: _, st =>
    let s1 := rdDropIn st
    ({ s1.1 with wkc := 0 }, s1.2 ++ [TEv.recvFail])
  | RxEvent.pkt p :: rest, st =>
    let s1 := rdDropIn st
    let s2 := readIter s1.1 p
    if s2.2.2 = true then
      let s3 := readLoop rest s2.1
      (s3.1, s1.2 ++ s2.2.1 ++ s3.2)
    else (s2.1, s1.2 ++ s2.2.1)

/-- Final buffer release on function exit (lines 198-199 / 409-410): any
still-held inbound buffer is dropped; the code never reaches an exit with
`MbxOut` non-null, so only the inbound drop appears. -/
def rdFinish (x : RdCore × List TEv) : RdCore × List TEv :=
  ((rdDropIn x.1).1, x.2 ++ (rdDropIn x.1).2)

/-- The READ/WRITE request packet composed at lines 103-113 / 244-254 of
`ec_foe.c`: header length `6 + fnsize`, password in the four-byte union,
truncated filename as payload. -/
def reqPkt (opc cnt fnsize : Nat) (filename : List Nat) (password : Nat) : FOEt :=
  { length := 6 + fnsize, mbxtype := ECT_MBXT_FOE + 16 * cnt,
    opCode := opc, num := password, data := filename.take fnsize }

/-- Inputs of a modelled `ecx_FOEread` call: the slave's advertised mailbox
length and rolling counter, the filename bytes, password, the caller's
`*psize` (buffer size), whether the pre-loop drain receive (line 89) found a
stale mailbox, and the receive/send scripts. -/
structure RdIn where
  mbx_l : Nat
  mbx_cnt : Nat
  filename : List Nat
  password : Nat
  psize : Int
  stale : Bool
  rx : List RxEvent
  tx : List Int
deriving Repr, DecidableEq

/-- State of `ecx_FOEread` at the top of the receive loop, after the drain
receive, the `maxdata` computation (the `uint16` assignment
`maxdata = mbx_l - 12`), the counter advance and the READ request send
(lines 85-116 of `ec_foe.c`). -/
def rdInit (inp : RdIn) : RdCore :=
  { buffersize := inp.psize, maxdata := (inp.mbx_l + 65524) % 65536,
    dataread := 0, prevpacket := 0, psizeCell := inp.psize, touched := false,
    buf := [], mbx_cnt := ec_nextmbxcnt inp.mbx_cnt,
    wkc := (nextSend inp.tx).1, tx := (nextSend inp.tx).2,
    inHeld := if inp.stale then some 0 else none,
    nid := (if inp.stale then 1 else 0) + 1 }

/-- Trace of the pre-loop phase of `ecx_FOEread` (lines 89-116): the drain
receive's stale buffer if any, the request buffer acquisition, and the READ
request send with the truncated filename. -/
def rdReqTrace (inp : RdIn) : List TEv :=
  (if inp.stale then [TEv.recvIn 0] else []) ++
  [TEv.getOut (if inp.stale then 1 else 0),
   TEv.send (if inp.stale then 1 else 0) (ec_nextmbxcnt inp.mbx_cnt)
     (reqPkt ECT_FOE_READ (ec_nextmbxcnt inp.mbx_cnt)
       (min (min inp.filename.length EC_MAXFOEDATA) ((inp.mbx_l + 65524) % 65536))
       inp.filename inp.password)
     (nextSend inp.tx).1]

/-- `ecx_FOEread` (lines 74-201 of `ec_foe.c`): drain receive, compose and
send the READ request (advancing the mailbox counter), then run the receive
loop when the request send succeeded; finally release held buffers. -/
def ecx_FOEread (inp : RdIn) : RdCore × List TEv :=
  if (nextSend inp.tx).1 > 0 then
    rdFinish ((readLoop inp.rx (rdInit inp)).1,
              rdReqTrace inp ++ (readLoop inp.rx (rdInit inp)).2)
  else
    rdFinish (rdInit inp, rdReqTrace inp)

/-- Mutable state of `ecx_FOEwrite`: remaining size `psize`, the cursor
offset into the caller's buffer (the pointer `p`), `sendpacket`,
`segmentdata` (size of the last transmitted segment, needed for the BUSY
rewind), `dofinalzero`, the rolling mailbox counter, the running work
counter, the send script, the held inbound buffer and the fresh-id
counter. -/
structure WrCore where
  maxdata : Nat
  psize : Nat
  off : Nat
  sendpacket : Nat
  segmentdata : Nat
  dofinalzero : Bool
  mbx_cnt : Nat
  wkc : Int
  tx : List Int
  inHeld : Option Nat
  nid : Nat
deriving Repr, DecidableEq

/-- The FoE DATA packet composed at lines 301-314 / 358-368 of `ec_foe.c`:
header length `6 + segmentdata` (as `uint16`), the incremented `sendpacket`
as packet number, and `segmentdata` bytes from the cursor as payload. -/
def dataPktOf (cnt pn seg : Nat) (payload : List Nat) : FOEt :=
  { length := (6 + seg) % 65536, mbxtype := ECT_MBXT_FOE + 16 * cnt,
    opCode := ECT_FOE_DATA, num := pn, data := payload }

/-- One iteration body of the write loop after a successful receive of packet
`p` (lines 269-406 of `ec_foe.c`), reading payload bytes from `input`. The
BUSY branch with `sendpacket` positive rewinds one segment and composes the
resend through the stale `FOEp` pointer, but hands `ecx_mbxsend` the address
of the (null) `MbxOut` pointer variable, recorded as `TEv.sendJunk`
(line 371). -/
def writeIter (input : List Nat) (st : WrCore) (p : FOEt) : WrCore × List TEv × Bool :=
  let inId := st.nid
  let st0 := { st with nid := st.nid + 1, inHeld := some inId, wkc := 1 }
  if p.mbxtype % 16 = ECT_MBXT_FOE then
    if p.opCode = ECT_FOE_ACK then
      if p.num = st0.sendpacket then
        let trh := [TEv.recvIn inId, TEv.hook p.num (st0.psize : Int)]
        let tsize := if st0.maxdata < st0.psize then st0.maxdata else st0.psize
        if tsize ≠ 0 ∨ st0.dofinalzero = true then
          let segmentdata := tsize
          let psize1 := st0.psize - segmentdata
          let outId := st0.nid
          let cnt := ec_nextmbxcnt st0.mbx_cnt
          let sp := st0.sendpacket + 1
          let payload := (input.drop st0.off).take segmentdata
          let f := dataPktOf cnt sp segmentdata payload
          let w := (nextSend st0.tx).1
          let tx1 := (nextSend st0.tx).2
          let wt := if w ≤ 0 then false else true
          ({ st0 with psize := psize1, off := st0.off + segmentdata,
                      sendpacket := sp, segmentdata := segmentdata,
                      dofinalzero := decide (psize1 = 0 ∧ segmentdata = st0.maxdata),
                      mbx_cnt := cnt, nid := st0.nid + 1, wkc := w, tx := tx1 },
           trh ++ [TEv.getOut outId, TEv.send outId cnt f w], wt)
        else
          (st0, trh, false)
      else
        ({ st0 with wkc := -EC_ERR_TYPE_FOE_PACKETNUMBER },
         [TEv.recvIn inId], false)
    else if p.opCode = ECT_FOE_BUSY then
      if st0.sendpacket ≠ 0 then
        let psize1 := st0.psize + st0.segmentdata
        let off1 := st0.off - st0.segmentdata
        let sp1 := st0.sendpacket - 1
        let tsize := if st0.maxdata < psize1 then st0.maxdata else psize1
        if tsize ≠ 0 ∨ st0.dofinalzero = true then
          let segmentdata := tsize
          let psize2 := psize1 - segmentdata
          let cnt := ec_nextmbxcnt st0.mbx_cnt
          let sp := sp1 + 1
          let payload := (input.drop off1).take segmentdata
          let f := dataPktOf cnt sp segmentdata payload
          let w := (nextSend st0.tx).1
          let tx1 := (nextSend st0.tx).2
          let wt := if w ≤ 0 then false else true
          ({ st0 with psize := psize2, off := off1 + segmentdata,
                      sendpacket := sp, segmentdata := segmentdata,
                      dofinalzero := decide (psize2 = 0 ∧ segmentdata = st0.maxdata),
                      mbx_cnt := cnt, wkc := w, tx := tx1 },
           [TEv.recvIn inId, TEv.sendJunk cnt f w], wt)
        else
          ({ st0 with psize := psize1, off := off1, sendpacket := sp1 },
           [TEv.recvIn inId], false)
      else
        (st0, [TEv.recvIn inId], false)
    else if p.opCode = ECT_FOE_ERROR then
      ({ st0 with wkc := if p.num = 32769 then -EC_ERR_TYPE_FOE_FILE_NOTFOUND
                         else -EC_ERR_TYPE_FOE_ERROR },
       [TEv.recvIn inId], false)
    else
      ({ st0 with wkc := -EC_ERR_TYPE_PACKET_ERROR }, [TEv.recvIn inId], false)
  else
    ({ st0 with wkc := -EC_ERR_TYPE_PACKET_ERROR }, [TEv.recvIn inId], false)

/-- Drop of a held inbound buffer in the write path (lines 263-264 / 409 of
`ec_foe.c`). -/
def wrDropIn (st : WrCore) : WrCore × List TEv :=
  match st.inHeld with
  | some i => ({ st with inHeld := none }, [TEv.dropIn i])
  | none => (st, [])

/-- The write do-while loop (lines 260-407 of `ec_foe.c`), analogous to
`readLoop`. -/
def writeLoop (input : List Nat) : List RxEvent → WrCore → WrCore × List TEv
  | [], st =>
    let s1 := wrDropIn st
    ({ s1.1 with wkc := 0 }, s1.2 ++ [TEv.recvFail])
  | RxEvent.timeout :: _, st =>
    let s1 := wrDropIn st
    ({ s1.1 with wkc := 0 }, s1.2 ++ [TEv.recvFail])
  | RxEvent.pkt p :: rest, st =>
    let s1 := wrDropIn st
    let s2 := writeIter input s1.1 p
    if s2.2.2 = true then
      let s3 := writeLoop input rest s2.1
      (s3.1, s1.2 ++ s2.2.1 ++ s3.2)
    else (s2.1, s1.2 ++ s2.2.1)

/-- Final buffer release on `ecx_FOEwrite` exit (lines 409-410). -/
def wrFinish (x : WrCore × List TEv) : WrCore × List TEv :=
  ((wrDropIn x.1).1, x.2 ++ (wrDropIn x.1).2)

/-- Inputs of a modelled `ecx_FOEwrite` call: slave mailbox length and
counter, filename bytes, password, the caller's buffer bytes and the `psize`
argument, the stale-drain flag and the receive/send scripts. -/
structure WrIn where
  mbx_l : Nat
  mbx_cnt : Nat
  filename : List Nat
  password : Nat
  bytes : List Nat
  psize : Nat
  stale : Bool
  rx : List RxEvent
  tx : List Int
deriving Repr, DecidableEq

/-- State of `ecx_FOEwrite` at the top of the receive loop, after the drain
receive, the `maxdata` computation, `dofinalzero = TRUE`, the counter
advance and the WRITE request send (lines 226-257 of `ec_foe.c`). -/
def wrInit (inp : WrIn) : WrCore :=
  { maxdata := (inp.mbx_l + 65524) % 65536, psize := inp.psize, off := 0,
    sendpacket := 0, segmentdata := 0, dofinalzero := true,
    mbx_cnt := ec_nextmbxcnt inp.mbx_cnt, wkc := (nextSend inp.tx).1,
    tx := (nextSend inp.tx).2, inHeld := if inp.stale then some 0 else none,
    nid := (if inp.stale then 1 else 0) + 1 }

/-- Trace of the pre-loop phase of `ecx_FOEwrite` (lines 229-257). -/
def wrReqTrace (inp : WrIn) : List TEv :=
  (if inp.stale then [TEv.recvIn 0] else []) ++
  [TEv.getOut (if inp.stale then 1 else 0),
   TEv.send (if inp.stale then 1 else 0) (ec_nextmbxcnt inp.mbx_cnt)
     (reqPkt ECT_FOE_WRITE (ec_nextmbxcnt inp.mbx_cnt)
       (min (min inp.filename.length EC_MAXFOEDATA) ((inp.mbx_l + 65524) % 65536))
       inp.filename inp.password)
     (nextSend inp.tx).1]

/-- `ecx_FOEwrite` (lines 214-412 of `ec_foe.c`): drain receive, compose and
send the WRITE request, initialize `sendpacket = 0` and `dofinalzero = TRUE`,
then run the receive loop when the request send succeeded; finally release
held buffers. -/
def ecx_FOEwrite (inp : WrIn) : WrCore × List TEv :=
  if (nextSend inp.tx).1 > 0 then
    wrFinish ((writeLoop inp.bytes inp.rx (wrInit inp)).1,
              wrReqTrace inp ++ (writeLoop inp.bytes inp.rx (wrInit inp)).2)
  else
    wrFinish (wrInit inp, wrReqTrace inp)

/-- Session counters of the packets handed to the transport, in send order
(both regular sends and the BUSY-resend slip consume a counter). -/
def cntsOf : List TEv → List Nat
  | [] => []
  | TEv.send _ c _ _ :: r => c :: cntsOf r
  | TEv.sendJunk c _ _ :: r => c :: cntsOf r
  | _ :: r => cntsOf r

/-- Counter/packet pairs of all sends, in order. -/
def sentOf : List TEv → List (Nat × FOEt)
  | [] => []
  | TEv.send _ c f _ :: r => (c, f) :: sentOf r
  | TEv.sendJunk c f _ :: r => (c, f) :: sentOf r
  | _ :: r => sentOf r

/-- What reaches the wire at each send: the composed packet for regular
sends, junk for the BUSY-resend slip. -/
def wireOf : List TEv → List WireItem
  | [] => []
  | TEv.send _ _ f _ :: r => WireItem.pkt f :: wireOf r
  | TEv.sendJunk _ _ _ :: r => WireItem.junk :: wireOf r
  | _ :: r => wireOf r

/-- Payloads of the DATA packets handed to the transport as actual buffers
(the BUSY-resend slip is excluded: its composed packet never reaches the
transport as a buffer). -/
def dataPayloads : List TEv → List (List Nat)
  | [] => []
  | TEv.send _ _ f _ :: r =>
    if f.opCode = ECT_FOE_DATA then f.data :: dataPayloads r else dataPayloads r
  | _ :: r => dataPayloads r

/-- Segment sizes copied into the caller's read buffer, in order. -/
def copiesOf : List TEv → List Nat
  | [] => []
  | TEv.copy s :: r => s :: copiesOf r
  | _ :: r => copiesOf r

/-- A well-formed incoming ACK packet from the slave with packet number
`n`. -/
def ackRx (n : Nat) : RxEvent :=
  RxEvent.pkt { length := 6, mbxtype := ECT_MBXT_FOE, opCode := ECT_FOE_ACK,
                num := n, data := [] }

/-- A well-formed incoming BUSY packet from the slave. -/
def busyRx : RxEvent :=
  RxEvent.pkt { length := 6, mbxtype := ECT_MBXT_FOE, opCode := ECT_FOE_BUSY,
                num := 0, data := [] }

/-- A well-formed incoming ERROR packet with error code `c`. -/
def errRx (c : Nat) : RxEvent :=
  RxEvent.pkt { length := 6, mbxtype := ECT_MBXT_FOE, opCode := ECT_FOE_ERROR,
                num := c, data := [] }

/-- A well-formed incoming DATA packet with packet number `pn` and payload
`pl` (header length `6 + payload length`). -/
def dataRx (pn : Nat) (pl : List Nat) : RxEvent :=
  RxEvent.pkt { length := 6 + pl.length, mbxtype := ECT_MBXT_FOE,
                opCode := ECT_FOE_DATA, num := pn, data := pl }

/-- Script of `n` in-order ACKs starting at packet number `s`: the slave
acknowledging every DATA packet of a write. -/
def ackScript : Nat → Nat → List RxEvent
  | _, 0 => []
  | s, n + 1 => ackRx s :: ackScript (s + 1) n

/-- The segment decomposition of a byte buffer against MTU `m` that the FoE
write protocol mandates: all full `m`-byte segments in order followed by one
final short segment (the remainder, which is empty exactly when the length
is a multiple of `m`, covering both the extra zero-length EOF packet and the
zero-byte file). -/
def segList (bytes : List Nat) (m : Nat) : List (List Nat) :=
  ((List.range (bytes.length / m)).map fun i => (bytes.drop (i * m)).take m)
    ++ [bytes.drop (m * (bytes.length / m))]

/-- The session-counter chain rule: each emitted counter is
`ec_nextmbxcnt` of its predecessor, starting from `c0`. -/
def chainOk : Nat → List Nat → Prop
  | _, [] => True
  | c0, c :: l => c = ec_nextmbxcnt c0 ∧ chainOk c l

/-- Mailbox buffer-pool accounting state: which inbound/outbound buffer is
currently held, and whether any violation happened (acquiring while one is
held, or releasing a buffer that is not the held one). -/
structure Acct where
  heldIn : Option Nat
  heldOut : Option Nat
  ok : Bool
deriving Repr, DecidableEq

/-- One accounting step per trace event, under the spec's ownership contract
(spec sections 5 and 6): `get_mbx`/a successful receive acquire, `drop_mbx`
releases, and `mbx_send` consumes the buffer exactly when its work counter
is positive — on a failed send the caller keeps ownership. The BUSY-resend
slip passes a non-pool pointer and does not touch the pool. -/
def acctStep (a : Acct) (e : TEv) : Acct :=
  match e with
  | TEv.getOut i =>
    if a.heldOut = none then { a with heldOut := some i } else { a with ok := false }
  | TEv.recvIn i =>
    if a.heldIn = none then { a with heldIn := some i } else { a with ok := false }
  | TEv.dropOut i =>
    if a.heldOut = some i then { a with heldOut := none } else { a with ok := false }
  | TEv.dropIn i =>
    if a.heldIn = some i then { a with heldIn := none } else { a with ok := false }
  | TEv.send i _ _ w =>
    if a.heldOut = some i then
      (if 0 < w then { a with heldOut := none } else a)
    else { a with ok := false }
  | _ => a

/-- Accounting over a whole trace, starting with nothing held. -/
def acctRun (tr : List TEv) : Acct :=
  tr.foldl acctStep { heldIn := none, heldOut := none, ok := true }

/-- The fully released, violation-free accounting outcome. -/
def acctClean : Acct := { heldIn := none, heldOut := none, ok := true }

theorem copiesOf_append (a b : List TEv) :
    copiesOf (a ++ b) = copiesOf a ++ copiesOf b := by
  induction a with
  | nil => rfl
  | cons e r ih => cases e <;> simp [copiesOf, ih]

theorem sentOf_append (a b : List TEv) :
    sentOf (a ++ b) = sentOf a ++ sentOf b := by
  induction a with
  | nil => rfl
  | cons e r ih => cases e <;> simp [sentOf, ih]

theorem cntsOf_append (a b : List TEv) :
    cntsOf (a ++ b) = cntsOf a ++ cntsOf b := by
  induction a with
  | nil => rfl
  | cons e r ih => cases e <;> simp [cntsOf, ih]

theorem dataPayloads_append (a b : List TEv) :
    dataPayloads (a ++ b) = dataPayloads a ++ dataPayloads b := by
  induction a with
  | nil => rfl
  | cons e r ih =>
    cases e <;> simp [dataPayloads, ih]
    split <;> simp

theorem rdDropIn_fst (st : RdCore) :
    (rdDropIn st).1 = { st with inHeld := none } := by
  obtain ⟨b, m, d, pp, pc, t, bf, mc, w, tx, held, n⟩ := st
  cases held <;> simp [rdDropIn]

theorem wrDropIn_fst (st : WrCore) :
    (wrDropIn st).1 = { st with inHeld := none } := by
  obtain ⟨m, ps, o, sp, sd, dfz, mc, w, tx, held, n⟩ := st
  cases held <;> simp [wrDropIn]

theorem rdDropIn_copies (st : RdCore) : copiesOf (rdDropIn st).2 = [] := by
  cases h : st.inHeld <;> simp [rdDropIn, h, copiesOf]

theorem rdDropIn_sent (st : RdCore) : sentOf (rdDropIn st).2 = [] := by
  cases h : st.inHeld <;> simp [rdDropIn, h, sentOf]

theorem wrDropIn_sent (st : WrCore) : sentOf (wrDropIn st).2 = [] := by
  cases h : st.inHeld <;> simp [wrDropIn, h, sentOf]

/-- Claim C2, code evidence at scenario S4 of the spec (`maxdata = 4`,
8-byte payload, slave sequence ACK 0, BUSY, ACK 1, ACK 2, ACK 3): the BUSY
branch does rewind one segment and composes a DATA packet with the same
packet number 1 and the same payload bytes as the previously sent segment
(third composed packet below), but line 371 of `ec_foe.c` hands
`ecx_mbxsend` the expression `(ec_mbxbuft *)&MbxOut` — the address of the
local buffer pointer, which is null at that point — instead of the buffer
holding that packet, so the third transmission on the wire is not the
composed duplicate DATA packet; the transfer nevertheless ends reporting
success. -/
theorem C2_busy_resend_sends_junk :
    (sentOf (ecx_FOEwrite ⟨16, 0, [97], 0, [10, 11, 12, 13, 14, 15, 16, 17], 8,
        false, [ackRx 0, busyRx, ackRx 1, ackRx 2, ackRx 3], []⟩).2).get? 2 =
      some (3, dataPktOf 3 1 4 [10, 11, 12, 13]) ∧
    (wireOf (ecx_FOEwrite ⟨16, 0, [97], 0, [10, 11, 12, 13, 14, 15, 16, 17], 8,
        false, [ackRx 0, busyRx, ackRx 1, ackRx 2, ackRx 3], []⟩).2).get? 2 =
      some WireItem.junk ∧
    (wireOf (ecx_FOEwrite ⟨16, 0, [97], 0, [10, 11, 12, 13, 14, 15, 16, 17], 8,
        false, [ackRx 0, busyRx, ackRx 1, ackRx 2, ackRx 3], []⟩).2).get? 1 =
      some (WireItem.pkt (dataPktOf 2 1 4 [10, 11, 12, 13])) ∧
    (ecx_FOEwrite ⟨16, 0, [97], 0, [10, 11, 12, 13, 14, 15, 16, 17], 8,
        false, [ackRx 0, busyRx, ackRx 1, ackRx 2, ackRx 3], []⟩).1.wkc = 1 := by
  decide

/-- Counterexample to claim C5: a read whose READ request is placed
successfully but whose first in-loop receive times out (empty response
script) returns with `*psize` still holding the caller's original buffer
size 5 while `dataread` is 0 — `*psize` is not updated to `dataread` on this
failure path, because the update at line 194 sits inside the
receive-succeeded branch. -/
theorem C5_cex :
    (ecx_FOEread ⟨16, 0, [], 0, 5, false, [], []⟩).1.psizeCell = 5 ∧
    (ecx_FOEread ⟨16, 0, [], 0, 5, false, [], []⟩).1.dataread = 0 ∧
    (ecx_FOEread ⟨16, 0, [], 0, 5, false, [], []⟩).1.wkc = 0 ∧
    ¬((ecx_FOEread ⟨16, 0, [], 0, 5, false, [], []⟩).1.psizeCell =
      (ecx_FOEread ⟨16, 0, [], 0, 5, false, [], []⟩).1.dataread) := by
  decide

/-- Counterexample to claim C6: with `mbx_l = 16` (so `maxdata = 4`) a DATA
packet announcing a 6-byte segment (header length 12) is accepted — the
acceptance test at line 136 checks only the packet number and the caller's
buffer bound, never `maxdata` — the 6 bytes are copied, the call returns the
positive work counter 1 with `*psize = 6`, so a successful read accepted a
segment exceeding `maxdata`. -/
theorem C6_cex :
    0 < (ecx_FOEread ⟨16, 0, [], 0, 10, false, [dataRx 1 [9, 9, 9, 9, 9, 9]], []⟩).1.wkc ∧
    copiesOf (ecx_FOEread ⟨16, 0, [], 0, 10, false, [dataRx 1 [9, 9, 9, 9, 9, 9]], []⟩).2 = [6] ∧
    (ecx_FOEread ⟨16, 0, [], 0, 10, false, [dataRx 1 [9, 9, 9, 9, 9, 9]], []⟩).1.maxdata = 4 ∧
    ¬(6 ≤ 4) := by
  decide

/-- Counterexample to claim C9 under the spec's send-ownership contract
(spec section 5: on a failed `mbx_send` the buffer remains with the caller
and must still be released): when the initial WRITE request send fails
(work counter 0), `ecx_FOEwrite` nulls `MbxOut` without dropping it
(lines 256-257), so the buffer acquired from the pool is never released —
the run's accounting does not end clean, the outbound buffer id 0 is still
held at return. -/
theorem C9_cex :
    acctRun (ecx_FOEwrite ⟨16, 0, [], 0, [], 0, false, [], [0]⟩).2 ≠ acctClean ∧
    (acctRun (ecx_FOEwrite ⟨16, 0, [], 0, [], 0, false, [], [0]⟩).2).heldOut = some 0 := by
  decide

/-- Claim C10: when `ecx_FOEwrite` receives a BUSY opcode before any DATA
packet has been sent (`sendpacket = 0`, i.e. as the response to the WRITE
request), the BUSY branch does nothing (lines 334-336), `worktodo` stays
false, and the function returns the positive work counter of that receive —
the call reports success although no file data was transferred: no DATA
packet was handed to the transport and the cursor never moved. -/
theorem C10_busy_before_data (L c pw P : Nat) (fn bytes : List Nat)
    (stale : Bool) (rest : List RxEvent) :
    (ecx_FOEwrite ⟨L, c, fn, pw, bytes, P, stale, busyRx :: rest, []⟩).1.wkc = 1 ∧
    dataPayloads (ecx_FOEwrite ⟨L, c, fn, pw, bytes, P, stale, busyRx :: rest, []⟩).2 = [] ∧
    (ecx_FOEwrite ⟨L, c, fn, pw, bytes, P, stale, busyRx :: rest, []⟩).1.sendpacket = 0 ∧
    (ecx_FOEwrite ⟨L, c, fn, pw, bytes, P, stale, busyRx :: rest, []⟩).1.off = 0 := by
  cases stale <;>
    simp [ecx_FOEwrite, wrInit, wrReqTrace, writeLoop, writeIter, wrDropIn,
      wrFinish, busyRx, nextSend, dataPayloads, dataPayloads_append, reqPkt,
      ECT_MBXT_FOE, ECT_FOE_ACK, ECT_FOE_BUSY, ECT_FOE_ERROR, ECT_FOE_DATA,
      ECT_FOE_WRITE]

/-- Claim C3: in the read loop, a received DATA packet whose packet number
is not exactly `prevpacket + 1`, or whose segment would overflow the
caller's buffer, terminates the transfer immediately with the negative error
code `-EC_ERR_TYPE_FOE_BUF2SMALL`; no bytes are copied into the caller's
buffer (no `copy` event, `buf` and `dataread` unchanged) and no further
packet is sent. -/
theorem C3_read_reject (st : RdCore) (rest : List RxEvent) (p : FOEt)
    (hT : p.mbxtype % 16 = ECT_MBXT_FOE) (hD : p.opCode = ECT_FOE_DATA)
    (hRej : ¬(p.num = st.prevpacket + 1 ∧
              st.dataread + (segOf p : Int) ≤ st.buffersize)) :
    (readLoop (RxEvent.pkt p :: rest) st).1.wkc = -EC_ERR_TYPE_FOE_BUF2SMALL ∧
    (readLoop (RxEvent.pkt p :: rest) st).1.buf = st.buf ∧
    (readLoop (RxEvent.pkt p :: rest) st).1.dataread = st.dataread ∧
    copiesOf (readLoop (RxEvent.pkt p :: rest) st).2 = [] ∧
    sentOf (readLoop (RxEvent.pkt p :: rest) st).2 = [] := by
  cases hHeld : st.inHeld <;>
    simp [readLoop, rdDropIn, readIter, hT, hD, hRej, hHeld, copiesOf, sentOf]

/-- Witness for C3 at a concrete state and packet: previous packet number 0,
incoming DATA announces packet number 2 (a gap). -/
theorem C3_witness :
    ((⟨12, 12, ECT_FOE_DATA, 2, [1, 2, 3, 4, 5, 6]⟩ : FOEt).mbxtype % 16 = ECT_MBXT_FOE ∧
     ¬((2 : Nat) = 0 + 1 ∧ (0 : Int) + ((segOf ⟨12, 12, ECT_FOE_DATA, 2, [1, 2, 3, 4, 5, 6]⟩ : Nat) : Int) ≤ 10)) ∧
    (readLoop [RxEvent.pkt ⟨12, 12, ECT_FOE_DATA, 2, [1, 2, 3, 4, 5, 6]⟩]
      ⟨10, 4, 0, 0, 10, false, [], 0, 1, [], none, 1⟩).1.wkc = -EC_ERR_TYPE_FOE_BUF2SMALL := by
  refine ⟨⟨by decide, by decide⟩, ?_⟩
  exact (C3_read_reject ⟨10, 4, 0, 0, 10, false, [], 0, 1, [], none, 1⟩ []
    ⟨12, 12, ECT_FOE_DATA, 2, [1, 2, 3, 4, 5, 6]⟩ (by decide) (by decide) (by decide)).1

/-- Claim C4: after the read loop accepts a DATA segment (packet number and
buffer bound both pass) and the ACK send succeeds, the loop's `worktodo`
flag is true exactly when the segment length equals `maxdata`; a segment
strictly shorter than `maxdata` is the EOF packet — the call leaves the loop
returning the positive work counter 1 with `*psize` set to the total bytes
delivered and the segment appended to the caller's buffer. -/
theorem C4_read_eof (st : RdCore) (rest : List RxEvent) (p : FOEt)
    (hT : p.mbxtype % 16 = ECT_MBXT_FOE) (hD : p.opCode = ECT_FOE_DATA)
    (hAcc : p.num = st.prevpacket + 1 ∧
            st.dataread + (segOf p : Int) ≤ st.buffersize)
    (hTx : st.tx = []) :
    ((readIter st p).2.2 = true ↔ segOf p = st.maxdata) ∧
    (segOf p < st.maxdata →
      (readLoop (RxEvent.pkt p :: rest) st).1.wkc = 1 ∧
      (readLoop (RxEvent.pkt p :: rest) st).1.psizeCell =
        st.dataread + (segOf p : Int) ∧
      (readLoop (RxEvent.pkt p :: rest) st).1.buf =
        st.buf ++ p.data.take (segOf p)) := by
  constructor
  · simp [readIter, hT, hD, hAcc.1, hAcc.2, hTx, nextSend]
  · intro hLt
    have hne : (segOf p == st.maxdata) = false := by
      simp [Nat.ne_of_lt hLt]
    cases hHeld : st.inHeld <;>
      simp [readLoop, rdDropIn, readIter, hT, hD, hAcc.1, hAcc.2, hTx, hHeld,
        nextSend, hne]

/-- Witness for C4 at a concrete state and packet: `maxdata = 4`, an
accepted 2-byte DATA segment number 1 ends the loop with success. -/
theorem C4_witness :
    ((⟨8, 12, ECT_FOE_DATA, 1, [7, 8]⟩ : FOEt).mbxtype % 16 = ECT_MBXT_FOE ∧
     segOf ⟨8, 12, ECT_FOE_DATA, 1, [7, 8]⟩ < 4) ∧
    ((readIter ⟨10, 4, 0, 0, 10, false, [], 0, 1, [], none, 1⟩
        ⟨8, 12, ECT_FOE_DATA, 1, [7, 8]⟩).2.2 = true ↔
      segOf ⟨8, 12, ECT_FOE_DATA, 1, [7, 8]⟩ = 4) ∧
    (readLoop [RxEvent.pkt ⟨8, 12, ECT_FOE_DATA, 1, [7, 8]⟩]
      ⟨10, 4, 0, 0, 10, false, [], 0, 1, [], none, 1⟩).1.wkc = 1 := by
  refine ⟨⟨by decide, by decide⟩, ?_, ?_⟩
  · exact (C4_read_eof ⟨10, 4, 0, 0, 10, false, [], 0, 1, [], none, 1⟩ []
      ⟨8, 12, ECT_FOE_DATA, 1, [7, 8]⟩ (by decide) (by decide)
      ⟨by decide, by decide⟩ (by decide)).1
  · exact ((C4_read_eof ⟨10, 4, 0, 0, 10, false, [], 0, 1, [], none, 1⟩ []
      ⟨8, 12, ECT_FOE_DATA, 1, [7, 8]⟩ (by decide) (by decide)
      ⟨by decide, by decide⟩ (by decide)).2 (by decide)).1

/-- Claim C8: when the write loop receives an ERROR opcode the transfer
terminates immediately — the returned work counter is
`-EC_ERR_TYPE_FOE_FILE_NOTFOUND` when the packet's error code equals
`0x8001` and `-EC_ERR_TYPE_FOE_ERROR` otherwise, and no further packet is
handed to the transport. -/
theorem C8_write_error (input : List Nat) (st : WrCore) (rest : List RxEvent)
    (p : FOEt)
    (hT : p.mbxtype % 16 = ECT_MBXT_FOE) (hE : p.opCode = ECT_FOE_ERROR) :
    (writeLoop input (RxEvent.pkt p :: rest) st).1.wkc =
      (if p.num = 0x8001 then -EC_ERR_TYPE_FOE_FILE_NOTFOUND
       else -EC_ERR_TYPE_FOE_ERROR) ∧
    sentOf (writeLoop input (RxEvent.pkt p :: rest) st).2 = [] := by
  cases hHeld : st.inHeld <;>
    simp [writeLoop, writeIter, wrDropIn, hT, hE, hHeld, sentOf,
      ECT_FOE_ACK, ECT_FOE_BUSY, ECT_FOE_ERROR]

/-- Witness for C8 at a concrete state and an ERROR packet with code
`0x8001`: the call fails with `-EC_ERR_TYPE_FOE_FILE_NOTFOUND`. -/
theorem C8_witness :
    ((⟨6, 12, ECT_FOE_ERROR, 0x8001, []⟩ : FOEt).mbxtype % 16 = ECT_MBXT_FOE ∧
     (⟨6, 12, ECT_FOE_ERROR, 0x8001, []⟩ : FOEt).opCode = ECT_FOE_ERROR) ∧
    (writeLoop [] [RxEvent.pkt ⟨6, 12, ECT_FOE_ERROR, 0x8001, []⟩]
      ⟨4, 0, 0, 0, 0, true, 0, 1, [], none, 1⟩).1.wkc =
      (if (0x8001 : Nat) = 0x8001 then -EC_ERR_TYPE_FOE_FILE_NOTFOUND
       else -EC_ERR_TYPE_FOE_ERROR) := by
  refine ⟨⟨by decide, by decide⟩, ?_⟩
  exact (C8_write_error [] ⟨4, 0, 0, 0, 0, true, 0, 1, [], none, 1⟩ []
    ⟨6, 12, ECT_FOE_ERROR, 0x8001, []⟩ (by decide) (by decide)).1


/-- After any receive-succeeded read iteration, the update `*psize =
dataread` at line 194 has executed: `touched` is set and the cell equals
`dataread`. -/
theorem readIter_psizeCell (st : RdCore) (p : FOEt) :
    (readIter st p).1.touched = true ∧
    (readIter st p).1.psizeCell = (readIter st p).1.dataread := by
  by_cases hT : p.mbxtype % 16 = ECT_MBXT_FOE
  · by_cases hD : p.opCode = ECT_FOE_DATA
    · by_cases hA : p.num = st.prevpacket + 1 ∧
          st.dataread + (segOf p : Int) ≤ st.buffersize
      · simp [readIter, hT, hD, hA.1, hA.2]
      · simp [readIter, hT, hD, hA]
    · by_cases hE : p.opCode = ECT_FOE_ERROR
      · simp [readIter, hT, hD, hE, ECT_FOE_DATA, ECT_FOE_ERROR]
      · simp [readIter, hT, hD, hE]
  · simp [readIter, hT]

/-- Any receive-succeeded read iteration advances `dataread` by exactly the
sum of the `copy` events it emits (one accepted segment or nothing). -/
theorem readIter_dataread (st : RdCore) (p : FOEt) :
    (readIter st p).1.dataread =
      st.dataread + (((copiesOf (readIter st p).2.1).sum : Nat) : Int) := by
  by_cases hT : p.mbxtype % 16 = ECT_MBXT_FOE
  · by_cases hD : p.opCode = ECT_FOE_DATA
    · by_cases hA : p.num = st.prevpacket + 1 ∧
          st.dataread + (segOf p : Int) ≤ st.buffersize
      · simp [readIter, hT, hD, hA.1, hA.2, copiesOf]
      · simp [readIter, hT, hD, hA, copiesOf]
    · by_cases hE : p.opCode = ECT_FOE_ERROR
      · simp [readIter, hT, hD, hE, ECT_FOE_DATA, ECT_FOE_ERROR, copiesOf]
      · simp [readIter, hT, hD, hE, copiesOf]
  · simp [readIter, hT, copiesOf]

/-- Loop invariant for the `*psize` update discipline: if the state entering
the loop satisfies it, then so does the state leaving the loop — `psizeCell`
equals `dataread` whenever the update has run at least once, and otherwise
both still hold their initial values. -/
theorem readLoop_psize (P : Int) (rx : List RxEvent) :
    ∀ st : RdCore,
    (st.touched = true → st.psizeCell = st.dataread) →
    (st.touched = false → st.psizeCell = P ∧ st.dataread = 0) →
    ((readLoop rx st).1.touched = true →
      (readLoop rx st).1.psizeCell = (readLoop rx st).1.dataread) ∧
    ((readLoop rx st).1.touched = false →
      (readLoop rx st).1.psizeCell = P ∧ (readLoop rx st).1.dataread = 0) := by
  induction rx with
  | nil =>
    intro st h1 h2
    simpa [readLoop, rdDropIn_fst] using ⟨h1, h2⟩
  | cons e rest ih =>
    intro st h1 h2
    cases e with
    | timeout => simpa [readLoop, rdDropIn_fst] using ⟨h1, h2⟩
    | pkt p =>
      have hIter := readIter_psizeCell (rdDropIn st).1 p
      by_cases hwt : (readIter (rdDropIn st).1 p).2.2 = true
      · have hRec := ih (readIter (rdDropIn st).1 p).1
          (fun _ => hIter.2)
          (fun hf => absurd (hIter.1.symm.trans hf) (by simp))
        simpa [readLoop, hwt] using hRec
      · refine ⟨?_, ?_⟩ <;> simp only [readLoop, hwt, if_neg, Bool.not_eq_true]
        · intro _; simpa using hIter.2
        · intro hf
          simp only [Bool.not_eq_true] at hwt
          exact absurd (hIter.1.symm.trans (by simpa [readLoop, hwt] using hf))
            (by simp)

/-- Claim C5 as amended: `*psize = dataread` holds on every return path of
`ecx_FOEread` on which the update at line 194 ran at least once, i.e. on
which at least one in-loop mailbox receive succeeded (this includes the
protocol-error and ACK-send-failure paths); on the paths where the initial
request send fails or where a receive fails before any response was
processed, `*psize` is left at the caller's original value and `dataread`
is 0. -/
theorem rdReqTrace_copies (inp : RdIn) : copiesOf (rdReqTrace inp) = [] := by
  cases h : inp.stale <;> simp [rdReqTrace, h, copiesOf, copiesOf_append]

theorem ecx_FOEread_fst (inp : RdIn) (hw : (nextSend inp.tx).1 > 0) :
    (ecx_FOEread inp).1 =
      { (readLoop inp.rx (rdInit inp)).1 with inHeld := none } := by
  simp [ecx_FOEread, hw, rdFinish, rdDropIn_fst]

theorem ecx_FOEread_copies (inp : RdIn) (hw : (nextSend inp.tx).1 > 0) :
    copiesOf (ecx_FOEread inp).2 =
      copiesOf (readLoop inp.rx (rdInit inp)).2 := by
  simp [ecx_FOEread, hw, rdFinish, copiesOf_append, rdReqTrace_copies,
    rdDropIn_copies]

theorem C5_psize_update (inp : RdIn) :
    ((ecx_FOEread inp).1.touched = true →
      (ecx_FOEread inp).1.psizeCell = (ecx_FOEread inp).1.dataread) ∧
    ((ecx_FOEread inp).1.touched = false →
      (ecx_FOEread inp).1.psizeCell = inp.psize ∧
      (ecx_FOEread inp).1.dataread = 0) := by
  by_cases hw : (nextSend inp.tx).1 > 0
  · have hLoop := readLoop_psize inp.psize inp.rx (rdInit inp)
      (by simp [rdInit]) (fun _ => ⟨rfl, rfl⟩)
    rw [ecx_FOEread_fst inp hw]
    simpa using hLoop
  · simp [ecx_FOEread, hw, rdFinish, rdDropIn_fst, rdInit]

/-- Witness for C5 as amended, at a concrete successful read: the update ran
and the cell equals `dataread`. -/
theorem C5_witness :
    (ecx_FOEread ⟨16, 0, [], 0, 10, false, [dataRx 1 [9, 9, 9, 9, 9, 9]], []⟩).1.touched = true ∧
    (ecx_FOEread ⟨16, 0, [], 0, 10, false, [dataRx 1 [9, 9, 9, 9, 9, 9]], []⟩).1.psizeCell =
      (ecx_FOEread ⟨16, 0, [], 0, 10, false, [dataRx 1 [9, 9, 9, 9, 9, 9]], []⟩).1.dataread :=
  ⟨by decide,
   (C5_psize_update ⟨16, 0, [], 0, 10, false, [dataRx 1 [9, 9, 9, 9, 9, 9]], []⟩).1 (by decide)⟩

/-- Loop invariant for the read byte accounting: the loop advances
`dataread` by exactly the sum of the `copy` events of its trace, and on any
loop exit with a positive work counter `psizeCell` equals `dataread`. -/
theorem readLoop_dataread (rx : List RxEvent) :
    ∀ st : RdCore,
    (readLoop rx st).1.dataread =
      st.dataread + (((copiesOf (readLoop rx st).2).sum : Nat) : Int) ∧
    (0 < (readLoop rx st).1.wkc →
      (readLoop rx st).1.psizeCell = (readLoop rx st).1.dataread) := by
  induction rx with
  | nil =>
    intro st
    constructor
    · simp [readLoop, rdDropIn_fst, copiesOf_append, rdDropIn_copies, copiesOf]
    · intro h
      simp [readLoop, rdDropIn_fst] at h
  | cons e rest ih =>
    intro st
    cases e with
    | timeout =>
      constructor
      · simp [readLoop, rdDropIn_fst, copiesOf_append, rdDropIn_copies, copiesOf]
      · intro h
        simp [readLoop, rdDropIn_fst] at h
    | pkt p =>
      have hIter := readIter_dataread (rdDropIn st).1 p
      have hCell := readIter_psizeCell (rdDropIn st).1 p
      have hDrop : (rdDropIn st).1.dataread = st.dataread := by
        simp [rdDropIn_fst]
      by_cases hwt : (readIter (rdDropIn st).1 p).2.2 = true
      · have hRec := ih (readIter (rdDropIn st).1 p).1
        constructor
        · simp only [readLoop, hwt, if_pos]
          rw [copiesOf_append, copiesOf_append, rdDropIn_copies]
          simp only [List.nil_append, List.sum_append]
          rw [hRec.1, hIter, hDrop]
          push_cast
          ring
        · simp only [readLoop, hwt, if_pos]
          exact hRec.2
      · constructor
        · simp only [readLoop, hwt, if_neg, Bool.not_eq_true]
          rw [copiesOf_append, rdDropIn_copies]
          simp only [List.nil_append]
          rw [hIter, hDrop]
        · simp only [readLoop, hwt, if_neg, Bool.not_eq_true]
          intro _
          exact hCell.2

/-- Claim C6 as amended: on every successful `ecx_FOEread` call (positive
returned work counter) both the returned `*psize` and `dataread` equal the
sum of the accepted DATA segment sizes (the `copy` events of the trace);
the bound `segment ≤ maxdata` claimed for accepted segments does not hold —
acceptance checks only the packet number and the caller's buffer bound
(see the counterexample). -/
theorem C6_read_total (inp : RdIn) (h : 0 < (ecx_FOEread inp).1.wkc) :
    (ecx_FOEread inp).1.psizeCell =
      (((copiesOf (ecx_FOEread inp).2).sum : Nat) : Int) ∧
    (ecx_FOEread inp).1.dataread =
      (((copiesOf (ecx_FOEread inp).2).sum : Nat) : Int) := by
  by_cases hw : (nextSend inp.tx).1 > 0
  · have hLoop := readLoop_dataread inp.rx (rdInit inp)
    rw [ecx_FOEread_fst inp hw] at h ⊢
    rw [ecx_FOEread_copies inp hw]
    have hPos : 0 < (readLoop inp.rx (rdInit inp)).1.wkc := by simpa using h
    have hd : (readLoop inp.rx (rdInit inp)).1.dataread =
        (((copiesOf (readLoop inp.rx (rdInit inp)).2).sum : Nat) : Int) := by
      have h1 := hLoop.1
      simpa [rdInit] using h1
    constructor
    · simpa using (hLoop.2 hPos).trans hd
    · simpa using hd
  · exfalso
    have hle : (ecx_FOEread inp).1.wkc = (nextSend inp.tx).1 := by
      simp [ecx_FOEread, hw, rdFinish, rdDropIn_fst, rdInit]
    rw [hle] at h
    omega

/-- Witness for C6 as amended at a concrete successful read: one accepted
3-byte segment, `*psize = 3` equals the sum of accepted sizes. -/
theorem C6_witness :
    0 < (ecx_FOEread ⟨40, 0, [], 0, 100, false, [dataRx 1 [1, 2, 3]], []⟩).1.wkc ∧
    (ecx_FOEread ⟨40, 0, [], 0, 100, false, [dataRx 1 [1, 2, 3]], []⟩).1.psizeCell =
      (((copiesOf (ecx_FOEread ⟨40, 0, [], 0, 100, false, [dataRx 1 [1, 2, 3]], []⟩).2).sum : Nat) : Int) :=
  ⟨by decide,
   (C6_read_total ⟨40, 0, [], 0, 100, false, [dataRx 1 [1, 2, 3]], []⟩ (by decide)).1⟩

/-- Accounting effect of the inbound-buffer drop at the loop top: with a
clean account whose held inbound buffer matches the state's, the drop
releases it. -/
theorem rdDropIn_acct (st : RdCore) (a : Acct) (hin : a.heldIn = st.inHeld) :
    List.foldl acctStep a (rdDropIn st).2 = { a with heldIn := none } := by
  obtain ⟨ai, ao, ok⟩ := a
  cases h : st.inHeld <;> simp [h] at hin <;>
    simp [rdDropIn, h, acctStep, hin]

theorem wrDropIn_acct (st : WrCore) (a : Acct) (hin : a.heldIn = st.inHeld) :
    List.foldl acctStep a (wrDropIn st).2 = { a with heldIn := none } := by
  obtain ⟨ai, ao, ok⟩ := a
  cases h : st.inHeld <;> simp [h] at hin <;>
    simp [wrDropIn, h, acctStep, hin]

/-- Accounting effect of one receive-succeeded read iteration, when every
send succeeds (empty send script): the inbound buffer of the receive is held
at the end, the ACK buffer (if any) was acquired and immediately consumed by
its successful send, and no violation occurs. -/
theorem readIter_acct (st : RdCore) (p : FOEt) (hTx : st.tx = []) :
    List.foldl acctStep { heldIn := none, heldOut := none, ok := true }
        (readIter st p).2.1 =
      { heldIn := (readIter st p).1.inHeld, heldOut := none, ok := true } ∧
    (readIter st p).1.tx = [] := by
  by_cases hT : p.mbxtype % 16 = ECT_MBXT_FOE
  · by_cases hD : p.opCode = ECT_FOE_DATA
    · by_cases hA : p.num = st.prevpacket + 1 ∧
          st.dataread + (segOf p : Int) ≤ st.buffersize
      · simp [readIter, hT, hD, hA.1, hA.2, hTx, nextSend, acctStep]
      · simp [readIter, hT, hD, hA, hTx, acctStep]
    · by_cases hE : p.opCode = ECT_FOE_ERROR
      · simp [readIter, hT, hD, hE, ECT_FOE_DATA, ECT_FOE_ERROR, hTx, acctStep]
      · simp [readIter, hT, hD, hE, hTx, acctStep]
  · simp [readIter, hT, hTx, acctStep]

/-- Accounting effect of one receive-succeeded write iteration under an
empty send script; the BUSY-resend `sendJunk` passes no pool buffer and so
does not touch the account. -/
theorem writeIter_acct (input : List Nat) (st : WrCore) (p : FOEt)
    (hTx : st.tx = []) :
    List.foldl acctStep { heldIn := none, heldOut := none, ok := true }
        (writeIter input st p).2.1 =
      { heldIn := (writeIter input st p).1.inHeld, heldOut := none, ok := true } ∧
    (writeIter input st p).1.tx = [] := by
  by_cases hT : p.mbxtype % 16 = ECT_MBXT_FOE
  · by_cases hA : p.opCode = ECT_FOE_ACK
    · by_cases hN : p.num = st.sendpacket
      · by_cases hZ : (if st.maxdata < st.psize then st.maxdata else st.psize) ≠ 0 ∨
            st.dofinalzero = true
        · simp [writeIter, hT, hA, hN, hZ, hTx, nextSend, acctStep]
        · simp [writeIter, hT, hA, hN, hZ, hTx, acctStep]
      · simp [writeIter, hT, hA, hN, hTx, acctStep]
    · by_cases hB : p.opCode = ECT_FOE_BUSY
      · by_cases hS : st.sendpacket ≠ 0
        · by_cases hZ : (if st.maxdata < st.psize + st.segmentdata then st.maxdata
              else st.psize + st.segmentdata) ≠ 0 ∨ st.dofinalzero = true
          · simp [writeIter, hT, hA, hB, hS, hZ, ECT_FOE_ACK, ECT_FOE_BUSY,
              hTx, nextSend, acctStep]
          · simp [writeIter, hT, hA, hB, hS, hZ, ECT_FOE_ACK, ECT_FOE_BUSY,
              hTx, acctStep]
        · simp [writeIter, hT, hA, hB, hS, ECT_FOE_ACK, ECT_FOE_BUSY, hTx, acctStep]
      · by_cases hE : p.opCode = ECT_FOE_ERROR
        · simp [writeIter, hT, hA, hB, hE, ECT_FOE_ACK, ECT_FOE_BUSY,
            ECT_FOE_ERROR, hTx, acctStep]
        · simp [writeIter, hT, hA, hB, hE, hTx, acctStep]
  · simp [writeIter, hT, hTx, acctStep]

/-- Accounting invariant of the read loop under an empty send script: a
clean account whose inbound buffer matches the state's is carried to a clean
account holding exactly the loop's final inbound buffer. -/
theorem readLoop_acct (rx : List RxEvent) :
    ∀ (st : RdCore) (a : Acct), st.tx = [] → a.heldOut = none →
    a.ok = true → a.heldIn = st.inHeld →
    List.foldl acctStep a (readLoop rx st).2 =
      { heldIn := (readLoop rx st).1.inHeld, heldOut := none, ok := true } := by
  induction rx with
  | nil =>
    intro st a hTx hO hK hI
    obtain ⟨ai, ao, ok⟩ := a
    simp only at hO hK
    subst hO; subst hK
    simp only [readLoop, List.foldl_append]
    rw [rdDropIn_acct st ⟨ai, none, true⟩ hI]
    simp [acctStep, rdDropIn_fst]
  | cons e rest ih =>
    intro st a hTx hO hK hI
    obtain ⟨ai, ao, ok⟩ := a
    simp only at hO hK
    subst hO; subst hK
    cases e with
    | timeout =>
      simp only [readLoop, List.foldl_append]
      rw [rdDropIn_acct st ⟨ai, none, true⟩ hI]
      simp [acctStep, rdDropIn_fst]
    | pkt p =>
      have hTx1 : (rdDropIn st).1.tx = [] := by simp [rdDropIn_fst, hTx]
      have hIter := readIter_acct (rdDropIn st).1 p hTx1
      by_cases hwt : (readIter (rdDropIn st).1 p).2.2 = true
      · simp only [readLoop, hwt, if_pos, List.foldl_append]
        rw [rdDropIn_acct st ⟨ai, none, true⟩ hI]
        have hmid : ({ heldIn := none, heldOut := none, ok := true } : Acct) =
            { (⟨ai, none, true⟩ : Acct) with heldIn := none } := rfl
        rw [← hmid, hIter.1]
        exact ih (readIter (rdDropIn st).1 p).1 _ hIter.2 rfl rfl rfl
      · simp only [readLoop, hwt, if_neg, Bool.not_eq_true, List.foldl_append]
        rw [rdDropIn_acct st ⟨ai, none, true⟩ hI]
        have hmid : ({ heldIn := none, heldOut := none, ok := true } : Acct) =
            { (⟨ai, none, true⟩ : Acct) with heldIn := none } := rfl
        rw [← hmid, hIter.1]

/-- Accounting invariant of the write loop under an empty send script. -/
theorem writeLoop_acct (input : List Nat) (rx : List RxEvent) :
    ∀ (st : WrCore) (a : Acct), st.tx = [] → a.heldOut = none →
    a.ok = true → a.heldIn = st.inHeld →
    List.foldl acctStep a (writeLoop input rx st).2 =
      { heldIn := (writeLoop input rx st).1.inHeld, heldOut := none, ok := true } := by
  induction rx with
  | nil =>
    intro st a hTx hO hK hI
    obtain ⟨ai, ao, ok⟩ := a
    simp only at hO hK
    subst hO; subst hK
    simp only [writeLoop, List.foldl_append]
    rw [wrDropIn_acct st ⟨ai, none, true⟩ hI]
    simp [acctStep, wrDropIn_fst]
  | cons e rest ih =>
    intro st a hTx hO hK hI
    obtain ⟨ai, ao, ok⟩ := a
    simp only at hO hK
    subst hO; subst hK
    cases e with
    | timeout =>
      simp only [writeLoop, List.foldl_append]
      rw [wrDropIn_acct st ⟨ai, none, true⟩ hI]
      simp [acctStep, wrDropIn_fst]
    | pkt p =>
      have hTx1 : (wrDropIn st).1.tx = [] := by simp [wrDropIn_fst, hTx]
      have hIter := writeIter_acct input (wrDropIn st).1 p hTx1
      by_cases hwt : (writeIter input (wrDropIn st).1 p).2.2 = true
      · simp only [writeLoop, hwt, if_pos, List.foldl_append]
        rw [wrDropIn_acct st ⟨ai, none, true⟩ hI]
        have hmid : ({ heldIn := none, heldOut := none, ok := true } : Acct) =
            { (⟨ai, none, true⟩ : Acct) with heldIn := none } := rfl
        rw [← hmid, hIter.1]
        exact ih (writeIter input (wrDropIn st).1 p).1 _ hIter.2 rfl rfl rfl
      · simp only [writeLoop, hwt, if_neg, Bool.not_eq_true, List.foldl_append]
        rw [wrDropIn_acct st ⟨ai, none, true⟩ hI]
        have hmid : ({ heldIn := none, heldOut := none, ok := true } : Acct) =
            { (⟨ai, none, true⟩ : Acct) with heldIn := none } := rfl
        rw [← hmid, hIter.1]

/-- Accounting of the read pre-loop phase with an empty send script. -/
theorem rdReqTrace_acct (inp : RdIn) (hTx : inp.tx = []) :
    List.foldl acctStep { heldIn := none, heldOut := none, ok := true }
        (rdReqTrace inp) =
      { heldIn := (rdInit inp).inHeld, heldOut := none, ok := true } := by
  cases h : inp.stale <;>
    simp [rdReqTrace, rdInit, h, acctStep, hTx, nextSend]

/-- Accounting of the write pre-loop phase with an empty send script. -/
theorem wrReqTrace_acct (inp : WrIn) (hTx : inp.tx = []) :
    List.foldl acctStep { heldIn := none, heldOut := none, ok := true }
        (wrReqTrace inp) =
      { heldIn := (wrInit inp).inHeld, heldOut := none, ok := true } := by
  cases h : inp.stale <;>
    simp [wrReqTrace, wrInit, h, acctStep, hTx, nextSend]

/-- Claim C9 as amended, under the spec's ownership contract for the
transport (modelled; `ecx_mbxsend` consumes the buffer exactly on success):
on every exit path on which every mailbox send succeeds (empty send script:
all send work counters are 1), the mailbox-pool accounting of a full
`ecx_FOEread` and `ecx_FOEwrite` run is clean — at most one inbound and one
outbound buffer are ever held, each acquired or received buffer is released
exactly once (by a successful send or a drop), and nothing is held at
return. When a send fails the outbound buffer is leaked instead (see the
counterexample). -/
theorem C9_buffer_accounting (L c pw : Nat) (fn : List Nat) (ps : Int)
    (stale : Bool) (rx : List RxEvent) (Lw cw pww psw : Nat)
    (fnw bytesw : List Nat) (stalew : Bool) (rxw : List RxEvent) :
    acctRun (ecx_FOEread ⟨L, c, fn, pw, ps, stale, rx, []⟩).2 = acctClean ∧
    acctRun (ecx_FOEwrite ⟨Lw, cw, fnw, pww, bytesw, psw, stalew, rxw, []⟩).2 = acctClean := by
  constructor
  · have hreq := rdReqTrace_acct ⟨L, c, fn, pw, ps, stale, rx, []⟩ rfl
    have hloop := readLoop_acct rx (rdInit ⟨L, c, fn, pw, ps, stale, rx, []⟩)
      { heldIn := (rdInit ⟨L, c, fn, pw, ps, stale, rx, []⟩).inHeld,
        heldOut := none, ok := true } rfl rfl rfl rfl
    have hfin := rdDropIn_acct (readLoop rx (rdInit ⟨L, c, fn, pw, ps, stale, rx, []⟩)).1
      { heldIn := (readLoop rx (rdInit ⟨L, c, fn, pw, ps, stale, rx, []⟩)).1.inHeld,
        heldOut := none, ok := true } rfl
    simp only [ecx_FOEread, nextSend, gt_iff_lt, zero_lt_one, if_pos, rdFinish,
      acctRun, List.foldl_append]
    rw [hreq, hloop, hfin]
    rfl
  · have hreq := wrReqTrace_acct ⟨Lw, cw, fnw, pww, bytesw, psw, stalew, rxw, []⟩ rfl
    have hloop := writeLoop_acct bytesw rxw
      (wrInit ⟨Lw, cw, fnw, pww, bytesw, psw, stalew, rxw, []⟩)
      { heldIn := (wrInit ⟨Lw, cw, fnw, pww, bytesw, psw, stalew, rxw, []⟩).inHeld,
        heldOut := none, ok := true } rfl rfl rfl rfl
    have hfin := wrDropIn_acct
      (writeLoop bytesw rxw (wrInit ⟨Lw, cw, fnw, pww, bytesw, psw, stalew, rxw, []⟩)).1
      { heldIn := (writeLoop bytesw rxw (wrInit ⟨Lw, cw, fnw, pww, bytesw, psw, stalew, rxw, []⟩)).1.inHeld,
        heldOut := none, ok := true } rfl
    simp only [ecx_FOEwrite, nextSend, gt_iff_lt, zero_lt_one, if_pos, wrFinish,
      acctRun, List.foldl_append]
    rw [hreq, hloop, hfin]
    rfl

/-- Last element of a counter list with a default: the value that ends up
stored in `slave.mbx_cnt`. -/
def lastCnt : List Nat → Nat → Nat
  | [], d => d
  | c :: l, _ => lastCnt l c

theorem ec_nextmbxcnt_bounds (c : Nat) :
    1 ≤ ec_nextmbxcnt c ∧ ec_nextmbxcnt c ≤ 7 := by
  unfold ec_nextmbxcnt
  omega

theorem rdDropIn_cnts (st : RdCore) : cntsOf (rdDropIn st).2 = [] := by
  cases h : st.inHeld <;> simp [rdDropIn, h, cntsOf]

theorem wrDropIn_cnts (st : WrCore) : cntsOf (wrDropIn st).2 = [] := by
  cases h : st.inHeld <;> simp [wrDropIn, h, cntsOf]

/-- Counter effect of one read iteration: either nothing is sent and the
slave's rolling counter is untouched, or exactly one packet is sent whose
session counter is the freshly advanced counter, which is also stored
back. -/
theorem readIter_cnts (st : RdCore) (p : FOEt) :
    (cntsOf (readIter st p).2.1 = [] ∧ sentOf (readIter st p).2.1 = [] ∧
     (readIter st p).1.mbx_cnt = st.mbx_cnt) ∨
    (∃ f, cntsOf (readIter st p).2.1 = [ec_nextmbxcnt st.mbx_cnt] ∧
      sentOf (readIter st p).2.1 = [(ec_nextmbxcnt st.mbx_cnt, f)] ∧
      (readIter st p).1.mbx_cnt = ec_nextmbxcnt st.mbx_cnt ∧
      f.mbxtype = ECT_MBXT_FOE + 16 * ec_nextmbxcnt st.mbx_cnt) := by
  by_cases hT : p.mbxtype % 16 = ECT_MBXT_FOE
  · by_cases hD : p.opCode = ECT_FOE_DATA
    · by_cases hA : p.num = st.prevpacket + 1 ∧
          st.dataread + (segOf p : Int) ≤ st.buffersize
      · exact Or.inr ⟨ackPktOf (ec_nextmbxcnt st.mbx_cnt) p.num,
          by simp [readIter, hT, hD, hA.1, hA.2, cntsOf, sentOf, ackPktOf]⟩
      · exact Or.inl (by simp [readIter, hT, hD, hA, cntsOf, sentOf])
    · by_cases hE : p.opCode = ECT_FOE_ERROR
      · exact Or.inl (by simp [readIter, hT, hD, hE, ECT_FOE_DATA,
          ECT_FOE_ERROR, cntsOf, sentOf])
      · exact Or.inl (by simp [readIter, hT, hD, hE, cntsOf, sentOf])
  · exact Or.inl (by simp [readIter, hT, cntsOf, sentOf])

/-- Counter effect of one write iteration; the BUSY resend also advances and
stores the counter and composes it into the (junk-sent) packet. -/
theorem writeIter_cnts (input : List Nat) (st : WrCore) (p : FOEt) :
    (cntsOf (writeIter input st p).2.1 = [] ∧
     sentOf (writeIter input st p).2.1 = [] ∧
     (writeIter input st p).1.mbx_cnt = st.mbx_cnt) ∨
    (∃ f, cntsOf (writeIter input st p).2.1 = [ec_nextmbxcnt st.mbx_cnt] ∧
      sentOf (writeIter input st p).2.1 = [(ec_nextmbxcnt st.mbx_cnt, f)] ∧
      (writeIter input st p).1.mbx_cnt = ec_nextmbxcnt st.mbx_cnt ∧
      f.mbxtype = ECT_MBXT_FOE + 16 * ec_nextmbxcnt st.mbx_cnt) := by
  by_cases hT : p.mbxtype % 16 = ECT_MBXT_FOE
  · by_cases hA : p.opCode = ECT_FOE_ACK
    · by_cases hN : p.num = st.sendpacket
      · by_cases hZ : (if st.maxdata < st.psize then st.maxdata else st.psize) ≠ 0 ∨
            st.dofinalzero = true
        · refine Or.inr ⟨dataPktOf (ec_nextmbxcnt st.mbx_cnt) (st.sendpacket + 1)
            (if st.maxdata < st.psize then st.maxdata else st.psize)
            ((input.drop st.off).take
              (if st.maxdata < st.psize then st.maxdata else st.psize)), ?_⟩
          simp [writeIter, hT, hA, hN, hZ, cntsOf, sentOf, dataPktOf]
        · exact Or.inl (by simp [writeIter, hT, hA, hN, hZ, cntsOf, sentOf])
      · exact Or.inl (by simp [writeIter, hT, hA, hN, cntsOf, sentOf])
    · by_cases hB : p.opCode = ECT_FOE_BUSY
      · by_cases hS : st.sendpacket ≠ 0
        · by_cases hZ : (if st.maxdata < st.psize + st.segmentdata then st.maxdata
              else st.psize + st.segmentdata) ≠ 0 ∨ st.dofinalzero = true
          · refine Or.inr ⟨dataPktOf (ec_nextmbxcnt st.mbx_cnt)
              (st.sendpacket - 1 + 1)
              (if st.maxdata < st.psize + st.segmentdata then st.maxdata
               else st.psize + st.segmentdata)
              ((input.drop (st.off - st.segmentdata)).take
                (if st.maxdata < st.psize + st.segmentdata then st.maxdata
                 else st.psize + st.segmentdata)), ?_⟩
            simp [writeIter, hT, hA, hB, hS, hZ, ECT_FOE_ACK, ECT_FOE_BUSY,
              cntsOf, sentOf, dataPktOf]
          · exact Or.inl (by simp [writeIter, hT, hA, hB, hS, hZ, ECT_FOE_ACK,
              ECT_FOE_BUSY, cntsOf, sentOf])
        · exact Or.inl (by simp [writeIter, hT, hA, hB, hS, ECT_FOE_ACK,
            ECT_FOE_BUSY, cntsOf, sentOf])
      · by_cases hE : p.opCode = ECT_FOE_ERROR
        · exact Or.inl (by simp [writeIter, hT, hA, hB, hE, ECT_FOE_ACK,
            ECT_FOE_BUSY, ECT_FOE_ERROR, cntsOf, sentOf])
        · exact Or.inl (by simp [writeIter, hT, hA, hB, hE, cntsOf, sentOf])
  · exact Or.inl (by simp [writeIter, hT, cntsOf, sentOf])

/-- Counter chain invariant of the read loop: the counters of all packets
sent by the loop form the `ec_nextmbxcnt` chain starting at the state's
rolling counter, the final rolling counter is the last counter sent (or the
initial one if nothing was sent), and every sent packet carries its counter
in the high nibble of `mbxtype`, always in 1..7. -/
theorem readLoop_cnts (rx : List RxEvent) :
    ∀ st : RdCore,
    chainOk st.mbx_cnt (cntsOf (readLoop rx st).2) ∧
    (readLoop rx st).1.mbx_cnt = lastCnt (cntsOf (readLoop rx st).2) st.mbx_cnt ∧
    ∀ pr ∈ sentOf (readLoop rx st).2,
      pr.2.mbxtype = ECT_MBXT_FOE + 16 * pr.1 ∧ 1 ≤ pr.1 ∧ pr.1 ≤ 7 := by
  induction rx with
  | nil =>
    intro st
    simp [readLoop, cntsOf_append, sentOf_append, rdDropIn_cnts, rdDropIn_sent,
      rdDropIn_fst, cntsOf, sentOf, chainOk, lastCnt]
  | cons e rest ih =>
    intro st
    cases e with
    | timeout =>
      simp [readLoop, cntsOf_append, sentOf_append, rdDropIn_cnts,
        rdDropIn_sent, rdDropIn_fst, cntsOf, sentOf, chainOk, lastCnt]
    | pkt p =>
      have hMc : (rdDropIn st).1.mbx_cnt = st.mbx_cnt := by simp [rdDropIn_fst]
      by_cases hwt : (readIter (rdDropIn st).1 p).2.2 = true
      · have hRec := ih (readIter (rdDropIn st).1 p).1
        rcases readIter_cnts (rdDropIn st).1 p with
          ⟨hc, hs, hm⟩ | ⟨f, hc, hs, hm, hf⟩
        · simp only [readLoop, hwt, if_pos, cntsOf_append, sentOf_append,
            rdDropIn_cnts, rdDropIn_sent, hc, hs, List.nil_append]
          rw [hMc] at hm
          rw [hm] at hRec
          exact hRec
        · rw [hMc] at hm hc hs hf
          simp only [readLoop, hwt, if_pos, cntsOf_append, sentOf_append,
            rdDropIn_cnts, rdDropIn_sent, hc, hs, List.nil_append,
            List.singleton_append]
          rw [hm] at hRec
          refine ⟨⟨rfl, hRec.1⟩, ?_, ?_⟩
          · simpa [lastCnt] using hRec.2.1
          · intro pr hpr
            rcases List.mem_cons.mp hpr with hEq | hMem
            · subst hEq
              exact ⟨hf, (ec_nextmbxcnt_bounds st.mbx_cnt).1,
                (ec_nextmbxcnt_bounds st.mbx_cnt).2⟩
            · exact hRec.2.2 pr hMem
      · rcases readIter_cnts (rdDropIn st).1 p with
          ⟨hc, hs, hm⟩ | ⟨f, hc, hs, hm, hf⟩
        · simp only [readLoop, hwt, if_neg, Bool.not_eq_true, cntsOf_append,
            sentOf_append, rdDropIn_cnts, rdDropIn_sent, hc, hs,
            List.nil_append, List.append_nil]
          rw [hMc] at hm
          simp [chainOk, lastCnt, hm, cntsOf, sentOf]
        · rw [hMc] at hm hc hs hf
          simp only [readLoop, hwt, if_neg, Bool.not_eq_true, cntsOf_append,
            sentOf_append, rdDropIn_cnts, rdDropIn_sent, hc, hs,
            List.nil_append, List.append_nil]
          refine ⟨⟨rfl, trivial⟩, by simp [lastCnt, hm], ?_⟩
          intro pr hpr
          rcases List.mem_singleton.mp hpr with hEq
          subst hEq
          exact ⟨hf, (ec_nextmbxcnt_bounds st.mbx_cnt).1,
            (ec_nextmbxcnt_bounds st.mbx_cnt).2⟩

/-- Counter chain invariant of the write loop. -/
theorem writeLoop_cnts (input : List Nat) (rx : List RxEvent) :
    ∀ st : WrCore,
    chainOk st.mbx_cnt (cntsOf (writeLoop input rx st).2) ∧
    (writeLoop input rx st).1.mbx_cnt =
      lastCnt (cntsOf (writeLoop input rx st).2) st.mbx_cnt ∧
    ∀ pr ∈ sentOf (writeLoop input rx st).2,
      pr.2.mbxtype = ECT_MBXT_FOE + 16 * pr.1 ∧ 1 ≤ pr.1 ∧ pr.1 ≤ 7 := by
  induction rx with
  | nil =>
    intro st
    simp [writeLoop, cntsOf_append, sentOf_append, wrDropIn_cnts, wrDropIn_sent,
      wrDropIn_fst, cntsOf, sentOf, chainOk, lastCnt]
  | cons e rest ih =>
    intro st
    cases e with
    | timeout =>
      simp [writeLoop, cntsOf_append, sentOf_append, wrDropIn_cnts,
        wrDropIn_sent, wrDropIn_fst, cntsOf, sentOf, chainOk, lastCnt]
    | pkt p =>
      have hMc : (wrDropIn st).1.mbx_cnt = st.mbx_cnt := by simp [wrDropIn_fst]
      by_cases hwt : (writeIter input (wrDropIn st).1 p).2.2 = true
      · have hRec := ih (writeIter input (wrDropIn st).1 p).1
        rcases writeIter_cnts input (wrDropIn st).1 p with
          ⟨hc, hs, hm⟩ | ⟨f, hc, hs, hm, hf⟩
        · simp only [writeLoop, hwt, if_pos, cntsOf_append, sentOf_append,
            wrDropIn_cnts, wrDropIn_sent, hc, hs, List.nil_append]
          rw [hMc] at hm
          rw [hm] at hRec
          exact hRec
        · rw [hMc] at hm hc hs hf
          simp only [writeLoop, hwt, if_pos, cntsOf_append, sentOf_append,
            wrDropIn_cnts, wrDropIn_sent, hc, hs, List.nil_append,
            List.singleton_append]
          rw [hm] at hRec
          refine ⟨⟨rfl, hRec.1⟩, ?_, ?_⟩
          · simpa [lastCnt] using hRec.2.1
          · intro pr hpr
            rcases List.mem_cons.mp hpr with hEq | hMem
            · subst hEq
              exact ⟨hf, (ec_nextmbxcnt_bounds st.mbx_cnt).1,
                (ec_nextmbxcnt_bounds st.mbx_cnt).2⟩
            · exact hRec.2.2 pr hMem
      · rcases writeIter_cnts input (wrDropIn st).1 p with
          ⟨hc, hs, hm⟩ | ⟨f, hc, hs, hm, hf⟩
        · simp only [writeLoop, hwt, if_neg, Bool.not_eq_true, cntsOf_append,
            sentOf_append, wrDropIn_cnts, wrDropIn_sent, hc, hs,
            List.nil_append, List.append_nil]
          rw [hMc] at hm
          simp [chainOk, lastCnt, hm, cntsOf, sentOf]
        · rw [hMc] at hm hc hs hf
          simp only [writeLoop, hwt, if_neg, Bool.not_eq_true, cntsOf_append,
            sentOf_append, wrDropIn_cnts, wrDropIn_sent, hc, hs,
            List.nil_append, List.append_nil]
          refine ⟨⟨rfl, trivial⟩, by simp [lastCnt, hm], ?_⟩
          intro pr hpr
          rcases List.mem_singleton.mp hpr with hEq
          subst hEq
          exact ⟨hf, (ec_nextmbxcnt_bounds st.mbx_cnt).1,
            (ec_nextmbxcnt_bounds st.mbx_cnt).2⟩

/-- Counter effect of the read pre-loop phase: the READ request carries the
freshly advanced counter. -/
theorem rdReqTrace_cnts (inp : RdIn) :
    cntsOf (rdReqTrace inp) = [ec_nextmbxcnt inp.mbx_cnt] ∧
    sentOf (rdReqTrace inp) = [(ec_nextmbxcnt inp.mbx_cnt,
      reqPkt ECT_FOE_READ (ec_nextmbxcnt inp.mbx_cnt)
        (min (min inp.filename.length EC_MAXFOEDATA) ((inp.mbx_l + 65524) % 65536))
        inp.filename inp.password)] := by
  cases h : inp.stale <;> simp [rdReqTrace, h, cntsOf, sentOf]

/-- Counter effect of the write pre-loop phase. -/
theorem wrReqTrace_cnts (inp : WrIn) :
    cntsOf (wrReqTrace inp) = [ec_nextmbxcnt inp.mbx_cnt] ∧
    sentOf (wrReqTrace inp) = [(ec_nextmbxcnt inp.mbx_cnt,
      reqPkt ECT_FOE_WRITE (ec_nextmbxcnt inp.mbx_cnt)
        (min (min inp.filename.length EC_MAXFOEDATA) ((inp.mbx_l + 65524) % 65536))
        inp.filename inp.password)] := by
  cases h : inp.stale <;> simp [wrReqTrace, h, cntsOf, sentOf]

/-- Claim C7: in every run of `ecx_FOEread` and `ecx_FOEwrite` — whatever
the slave sends, including BUSY-driven resends and failure paths — the
session counters of the outbound packets (READ, WRITE, ACK, DATA) form the
chain `c = (prev mod 7) + 1` starting from the slave's rolling counter, each
counter lies in 1..7 (never 0), each packet carries its counter in the high
nibble of the mailbox type byte, and the slave's rolling counter ends at the
last counter used (it is stored back before each send). -/
theorem C7_mbx_counter (inpR : RdIn) (inpW : WrIn) :
    (chainOk inpR.mbx_cnt (cntsOf (ecx_FOEread inpR).2) ∧
     (ecx_FOEread inpR).1.mbx_cnt =
       lastCnt (cntsOf (ecx_FOEread inpR).2) inpR.mbx_cnt ∧
     ∀ pr ∈ sentOf (ecx_FOEread inpR).2,
       pr.2.mbxtype = ECT_MBXT_FOE + 16 * pr.1 ∧ 1 ≤ pr.1 ∧ pr.1 ≤ 7) ∧
    (chainOk inpW.mbx_cnt (cntsOf (ecx_FOEwrite inpW).2) ∧
     (ecx_FOEwrite inpW).1.mbx_cnt =
       lastCnt (cntsOf (ecx_FOEwrite inpW).2) inpW.mbx_cnt ∧
     ∀ pr ∈ sentOf (ecx_FOEwrite inpW).2,
       pr.2.mbxtype = ECT_MBXT_FOE + 16 * pr.1 ∧ 1 ≤ pr.1 ∧ pr.1 ≤ 7) := by
  constructor
  · have hReq := rdReqTrace_cnts inpR
    by_cases hw : (nextSend inpR.tx).1 > 0
    · have hLoop := readLoop_cnts inpR.rx (rdInit inpR)
      rw [show ecx_FOEread inpR = rdFinish ((readLoop inpR.rx (rdInit inpR)).1,
        rdReqTrace inpR ++ (readLoop inpR.rx (rdInit inpR)).2) from by
          simp [ecx_FOEread, hw]]
      simp only [rdFinish, cntsOf_append, sentOf_append, rdDropIn_cnts,
        rdDropIn_sent, rdDropIn_fst, List.append_nil, hReq.1, hReq.2,
        List.singleton_append]
      refine ⟨⟨rfl, hLoop.1⟩, ?_, ?_⟩
      · simpa [lastCnt] using hLoop.2.1
      · intro pr hpr
        rcases List.mem_cons.mp hpr with hEq | hMem
        · subst hEq
          exact ⟨by simp [reqPkt], (ec_nextmbxcnt_bounds inpR.mbx_cnt).1,
            (ec_nextmbxcnt_bounds inpR.mbx_cnt).2⟩
        · exact hLoop.2.2 pr hMem
    · rw [show ecx_FOEread inpR = rdFinish (rdInit inpR, rdReqTrace inpR) from by
        simp [ecx_FOEread, hw]]
      simp only [rdFinish, cntsOf_append, sentOf_append, rdDropIn_cnts,
        rdDropIn_sent, rdDropIn_fst, List.append_nil, hReq.1, hReq.2]
      refine ⟨⟨rfl, trivial⟩, rfl, ?_⟩
      intro pr hpr
      rcases List.mem_singleton.mp hpr with hEq
      subst hEq
      exact ⟨by simp [reqPkt], (ec_nextmbxcnt_bounds inpR.mbx_cnt).1,
        (ec_nextmbxcnt_bounds inpR.mbx_cnt).2⟩
  · have hReq := wrReqTrace_cnts inpW
    by_cases hw : (nextSend inpW.tx).1 > 0
    · have hLoop := writeLoop_cnts inpW.bytes inpW.rx (wrInit inpW)
      rw [show ecx_FOEwrite inpW = wrFinish ((writeLoop inpW.bytes inpW.rx (wrInit inpW)).1,
        wrReqTrace inpW ++ (writeLoop inpW.bytes inpW.rx (wrInit inpW)).2) from by
          simp [ecx_FOEwrite, hw]]
      simp only [wrFinish, cntsOf_append, sentOf_append, wrDropIn_cnts,
        wrDropIn_sent, wrDropIn_fst, List.append_nil, hReq.1, hReq.2,
        List.singleton_append]
      refine ⟨⟨rfl, hLoop.1⟩, ?_, ?_⟩
      · simpa [lastCnt] using hLoop.2.1
      · intro pr hpr
        rcases List.mem_cons.mp hpr with hEq | hMem
        · subst hEq
          exact ⟨by simp [reqPkt], (ec_nextmbxcnt_bounds inpW.mbx_cnt).1,
            (ec_nextmbxcnt_bounds inpW.mbx_cnt).2⟩
        · exact hLoop.2.2 pr hMem
    · rw [show ecx_FOEwrite inpW = wrFinish (wrInit inpW, wrReqTrace inpW) from by
        simp [ecx_FOEwrite, hw]]
      simp only [wrFinish, cntsOf_append, sentOf_append, wrDropIn_cnts,
        wrDropIn_sent, wrDropIn_fst, List.append_nil, hReq.1, hReq.2]
      refine ⟨⟨rfl, trivial⟩, rfl, ?_⟩
      intro pr hpr
      rcases List.mem_singleton.mp hpr with hEq
      subst hEq
      exact ⟨by simp [reqPkt], (ec_nextmbxcnt_bounds inpW.mbx_cnt).1,
        (ec_nextmbxcnt_bounds inpW.mbx_cnt).2⟩

/-- Witness for C7 at concrete runs (the S4 write, which includes a
BUSY-driven resend, and a one-segment read). -/
theorem C7_witness :
    chainOk 0 (cntsOf (ecx_FOEread ⟨40, 0, [], 0, 100, false, [dataRx 1 [1, 2, 3]], []⟩).2) ∧
    (ecx_FOEwrite ⟨16, 0, [97], 0, [10, 11, 12, 13, 14, 15, 16, 17], 8,
        false, [ackRx 0, busyRx, ackRx 1, ackRx 2, ackRx 3], []⟩).1.mbx_cnt =
      lastCnt (cntsOf (ecx_FOEwrite ⟨16, 0, [97], 0, [10, 11, 12, 13, 14, 15, 16, 17], 8,
        false, [ackRx 0, busyRx, ackRx 1, ackRx 2, ackRx 3], []⟩).2) 0 :=
  ⟨(C7_mbx_counter ⟨40, 0, [], 0, 100, false, [dataRx 1 [1, 2, 3]], []⟩
      ⟨16, 0, [97], 0, [10, 11, 12, 13, 14, 15, 16, 17], 8,
        false, [ackRx 0, busyRx, ackRx 1, ackRx 2, ackRx 3], []⟩).1.1,
   (C7_mbx_counter ⟨40, 0, [], 0, 100, false, [dataRx 1 [1, 2, 3]], []⟩
      ⟨16, 0, [97], 0, [10, 11, 12, 13, 14, 15, 16, 17], 8,
        false, [ackRx 0, busyRx, ackRx 1, ackRx 2, ackRx 3], []⟩).2.2.1⟩

theorem segList_nil (m : Nat) : segList [] m = [[]] := by
  simp [segList]

theorem segList_small (m : Nat) (bytes : List Nat) (h : bytes.length < m) :
    segList bytes m = [bytes] := by
  simp [segList, Nat.div_eq_of_lt h]

theorem segList_cons (m : Nat) (bytes : List Nat) (hm : 0 < m)
    (h : m ≤ bytes.length) :
    segList bytes m = bytes.take m :: segList (bytes.drop m) m := by
  unfold segList
  rw [List.length_drop, Nat.div_eq_sub_div hm h, List.range_succ_eq_map]
  rw [List.map_cons, List.map_map]
  have hmap : ((fun i => (bytes.drop (i * m)).take m) ∘ Nat.succ) =
      fun i => ((bytes.drop m).drop (i * m)).take m := by
    funext i
    simp only [Function.comp]
    rw [List.drop_drop]
    congr 2
    rw [Nat.succ_mul]
    omega
  rw [hmap]
  have hlast : bytes.drop (m * ((bytes.length - m) / m + 1)) =
      (bytes.drop m).drop (m * ((bytes.length - m) / m)) := by
    rw [List.drop_drop]
    congr 1
    ring
  rw [hlast]
  simp [Nat.zero_mul, List.drop_zero]

theorem segList_flatten (m : Nat) (hm : 0 < m) (bytes : List Nat) :
    (segList bytes m).flatten = bytes := by
  have key : ∀ n, ∀ b : List Nat, b.length ≤ n → (segList b m).flatten = b := by
    intro n
    induction n with
    | zero =>
      intro b h
      have hb : b = [] := List.length_eq_zero.mp (Nat.le_zero.mp h)
      subst hb
      simp [segList_nil]
    | succ n ihn =>
      intro b h
      by_cases hlt : b.length < m
      · simp [segList_small m b hlt]
      · push_neg at hlt
        rw [segList_cons m b hm hlt, List.flatten_cons,
          ihn (b.drop m) (by simp [List.length_drop]; omega)]
        exact List.take_append_drop m b
  exact key bytes.length bytes le_rfl

theorem getLastD_concat_eq (l : List (List Nat)) (a d : List Nat) :
    (l ++ [a]).getLastD d = a := by
  induction l generalizing d with
  | nil => rfl
  | cons x xs ih =>
    rw [List.cons_append, List.getLastD_cons]
    exact ih x

theorem segList_last (m : Nat) (bytes : List Nat) :
    (segList bytes m).getLastD [] =
      bytes.drop (m * (bytes.length / m)) := by
  unfold segList
  exact getLastD_concat_eq _ _ _

theorem segList_last_lt (m : Nat) (hm : 0 < m) (bytes : List Nat) :
    ((segList bytes m).getLastD []).length < m := by
  rw [segList_last]
  rw [List.length_drop]
  have h1 := Nat.div_add_mod bytes.length m
  have h2 := Nat.mod_lt bytes.length hm
  omega

theorem segList_ne_nil (m : Nat) (bytes : List Nat) :
    segList bytes m ≠ [] := by
  unfold segList
  simp

theorem segList_multiple (m : Nat) (bytes : List Nat) (hm : 0 < m)
    (hdvd : m ∣ bytes.length) :
    (segList bytes m).getLastD [] = [] ∧
    ∀ l ∈ (segList bytes m).dropLast, l.length = m := by
  have hmul : m * (bytes.length / m) = bytes.length :=
    Nat.mul_div_cancel' hdvd
  constructor
  · rw [segList_last, hmul]
    simp [List.drop_length]
  · unfold segList
    rw [List.dropLast_concat]
    intro l hl
    rcases List.mem_map.mp hl with ⟨i, hi, hEq⟩
    subst hEq
    have hik : i < bytes.length / m := List.mem_range.mp hi
    have hle : (i + 1) * m ≤ bytes.length := by
      calc (i + 1) * m ≤ (bytes.length / m) * m :=
            Nat.mul_le_mul_right m hik
        _ = bytes.length := by rw [Nat.mul_comm]; exact hmul
    rw [List.length_take, List.length_drop]
    have : (i + 1) * m = i * m + m := Nat.succ_mul i m
    omega

theorem wrDropIn_dataP (st : WrCore) : dataPayloads (wrDropIn st).2 = [] := by
  cases h : st.inHeld <;> simp [wrDropIn, h, dataPayloads]

/-- Number of ACKs (including the final one that finds nothing left to send)
a write transfer with `remaining = R` and `dofinalzero = d` still consumes
against MTU `m`. -/
def nAcks (m R : Nat) (d : Bool) : Nat :=
  (if R = 0 then (if d then 1 else 0) else R / m + 1) + 1

/-- Step equation of the write loop on a matching ACK when there is still a
segment (or the final zero-length packet) to send: one DATA packet goes out
and the loop recurses on the advanced state. -/
theorem writeLoop_ack_step (input : List Nat) (st : WrCore) (rest : List RxEvent)
    (hTx : st.tx = [])
    (hZ : (if st.maxdata < st.psize then st.maxdata else st.psize) ≠ 0 ∨
      st.dofinalzero = true) :
    writeLoop input (ackRx st.sendpacket :: rest) st =
      ((writeLoop input rest
         { maxdata := st.maxdata,
           psize := st.psize -
             (if st.maxdata < st.psize then st.maxdata else st.psize),
           off := st.off + (if st.maxdata < st.psize then st.maxdata else st.psize),
           sendpacket := st.sendpacket + 1,
           segmentdata := if st.maxdata < st.psize then st.maxdata else st.psize,
           dofinalzero := decide
             (st.psize - (if st.maxdata < st.psize then st.maxdata else st.psize) = 0 ∧
              (if st.maxdata < st.psize then st.maxdata else st.psize) = st.maxdata),
           mbx_cnt := ec_nextmbxcnt st.mbx_cnt, wkc := 1, tx := [],
           inHeld := some st.nid, nid := st.nid + 1 + 1 }).1,
       (wrDropIn st).2 ++
         ([TEv.recvIn st.nid, TEv.hook st.sendpacket (st.psize : Int)] ++
          [TEv.getOut (st.nid + 1),
           TEv.send (st.nid + 1) (ec_nextmbxcnt st.mbx_cnt)
             (dataPktOf (ec_nextmbxcnt st.mbx_cnt) (st.sendpacket + 1)
               (if st.maxdata < st.psize then st.maxdata else st.psize)
               ((input.drop st.off).take
                 (if st.maxdata < st.psize then st.maxdata else st.psize))) 1]) ++
       (writeLoop input rest
         { maxdata := st.maxdata,
           psize := st.psize -
             (if st.maxdata < st.psize then st.maxdata else st.psize),
           off := st.off + (if st.maxdata < st.psize then st.maxdata else st.psize),
           sendpacket := st.sendpacket + 1,
           segmentdata := if st.maxdata < st.psize then st.maxdata else st.psize,
           dofinalzero := decide
             (st.psize - (if st.maxdata < st.psize then st.maxdata else st.psize) = 0 ∧
              (if st.maxdata < st.psize then st.maxdata else st.psize) = st.maxdata),
           mbx_cnt := ec_nextmbxcnt st.mbx_cnt, wkc := 1, tx := [],
           inHeld := some st.nid, nid := st.nid + 1 + 1 }).2) := by
  simp [writeLoop, writeIter, ackRx, wrDropIn_fst, hTx, hZ, nextSend,
    ECT_MBXT_FOE]

/-- Step equation of the write loop on a matching ACK when nothing remains
and no final zero-length packet is due: the loop exits with the receive's
work counter. -/
theorem writeLoop_ack_exit (input : List Nat) (st : WrCore) (rest : List RxEvent)
    (hZ0 : (if st.maxdata < st.psize then st.maxdata else st.psize) = 0)
    (hd : st.dofinalzero = false) :
    writeLoop input (ackRx st.sendpacket :: rest) st =
      ({ st with inHeld := some st.nid, nid := st.nid + 1, wkc := 1 },
       (wrDropIn st).2 ++
         [TEv.recvIn st.nid, TEv.hook st.sendpacket (st.psize : Int)]) := by
  simp [writeLoop, writeIter, ackRx, wrDropIn_fst, hZ0, hd, ECT_MBXT_FOE]

theorem ackScript_succ (s n : Nat) :
    ackScript s (n + 1) = ackRx s :: ackScript (s + 1) n := rfl

theorem ackScript_one (s : Nat) : ackScript s 1 = [ackRx s] := rfl

/-- Master characterization of the write loop driven by in-order ACKs with
all sends succeeding: starting with `remaining = R` at cursor `off`, the
DATA payloads handed to the transport are exactly the protocol segmentation
of the remaining bytes (full `maxdata` segments, then the short remainder,
with a zero-length packet exactly when `dofinalzero` asks for one on an
empty remainder or the remainder divides evenly), and the loop exits
reporting work counter 1. -/
theorem writeAck_loop (input : List Nat) (m : Nat) (hm : 0 < m) :
    ∀ (R : Nat) (st : WrCore), st.maxdata = m → st.psize = R → st.tx = [] →
      st.off + R ≤ input.length →
    dataPayloads (writeLoop input
        (ackScript st.sendpacket (nAcks m R st.dofinalzero)) st).2 =
      (if R = 0 then (if st.dofinalzero then [[]] else [])
       else segList ((input.drop st.off).take R) m) ∧
    (writeLoop input
        (ackScript st.sendpacket (nAcks m R st.dofinalzero)) st).1.wkc = 1 := by
  intro R
  induction R using Nat.strong_induction_on with
  | _ R ih =>
    intro st hM hP hTx hLen
    by_cases hR : R = 0
    · subst hR
      cases hd : st.dofinalzero with
      | false =>
        have hn : nAcks m 0 false = 1 := by simp [nAcks]
        rw [hn, ackScript_one]
        have hZ0 : (if st.maxdata < st.psize then st.maxdata else st.psize) = 0 := by
          rw [hM, hP]
          simp
        rw [show ([ackRx st.sendpacket] : List RxEvent) =
          ackRx st.sendpacket :: [] from rfl]
        rw [writeLoop_ack_exit input st [] hZ0 hd]
        simp [dataPayloads_append, wrDropIn_dataP, dataPayloads]
      | true =>
        have hn : nAcks m 0 true = 1 + 1 := by simp [nAcks]
        rw [hn, ackScript_succ]
        have hZ : (if st.maxdata < st.psize then st.maxdata else st.psize) ≠ 0 ∨
            st.dofinalzero = true := Or.inr hd
        rw [writeLoop_ack_step input st _ hTx hZ, hM, hP]
        have ht0 : (if m < 0 then m else 0) = 0 := by simp
        rw [ht0]
        have hZ0 : (if (⟨m, 0 - 0, st.off + 0, st.sendpacket + 1, 0,
            decide (0 - 0 = 0 ∧ 0 = m), ec_nextmbxcnt st.mbx_cnt, 1, [],
            some st.nid, st.nid + 1 + 1⟩ : WrCore).maxdata <
            (⟨m, 0 - 0, st.off + 0, st.sendpacket + 1, 0,
            decide (0 - 0 = 0 ∧ 0 = m), ec_nextmbxcnt st.mbx_cnt, 1, [],
            some st.nid, st.nid + 1 + 1⟩ : WrCore).psize then m else 0 - 0) = 0 := by
          simp
        have hd2 : (⟨m, 0 - 0, st.off + 0, st.sendpacket + 1, 0,
            decide (0 - 0 = 0 ∧ 0 = m), ec_nextmbxcnt st.mbx_cnt, 1, [],
            some st.nid, st.nid + 1 + 1⟩ : WrCore).dofinalzero = false := by
          simp [Nat.ne_of_lt hm]
        rw [ackScript_one]
        rw [show ([ackRx (st.sendpacket + 1)] : List RxEvent) =
          ackRx (st.sendpacket + 1) :: [] from rfl]
        rw [show st.sendpacket + 1 = (⟨m, 0 - 0, st.off + 0, st.sendpacket + 1, 0,
            decide (0 - 0 = 0 ∧ 0 = m), ec_nextmbxcnt st.mbx_cnt, 1, [],
            some st.nid, st.nid + 1 + 1⟩ : WrCore).sendpacket from rfl]
        rw [writeLoop_ack_exit input _ [] hZ0 hd2]
        simp [dataPayloads_append, wrDropIn_dataP, dataPayloads, dataPktOf,
          ECT_FOE_DATA]
    · have hR' : 0 < R := Nat.pos_of_ne_zero hR
      have hn : nAcks m R st.dofinalzero = R / m + 1 + 1 := by simp [nAcks, hR]
      rw [hn, ackScript_succ]
      have hZ : (if st.maxdata < st.psize then st.maxdata else st.psize) ≠ 0 ∨
          st.dofinalzero = true := by
        left
        rw [hM, hP]
        split <;> omega
      rw [writeLoop_ack_step input st _ hTx hZ, hM, hP]
      set t := if m < R then m else R with hT
      have htpos : 0 < t := by rw [hT]; split <;> omega
      have htR : t ≤ R := by rw [hT]; split <;> omega
      have hlt : R - t < R := by omega
      have hnB : nAcks m (R - t) (decide (R - t = 0 ∧ t = m)) = R / m + 1 := by
        by_cases hmr : m < R
        · have ht : t = m := by rw [hT]; simp [hmr]
          have h1 : ¬(R - m = 0) := by omega
          rw [Nat.div_eq_sub_div hm (le_of_lt hmr)]
          simp [nAcks, ht, h1]
        · have ht : t = R := by rw [hT]; simp [hmr]
          by_cases hRm : R = m
          · simp [nAcks, ht, hRm, Nat.div_self hm]
          · have hRlt : R < m := by omega
            simp [nAcks, ht, hRm, Nat.div_eq_of_lt hRlt]
      have hStep := ih (R - t) hlt
        ⟨m, R - t, st.off + t, st.sendpacket + 1, t,
         decide (R - t = 0 ∧ t = m), ec_nextmbxcnt st.mbx_cnt, 1, [],
         some st.nid, st.nid + 1 + 1⟩
        rfl rfl rfl (by show st.off + t + (R - t) ≤ input.length; omega)
      simp only at hStep
      rw [hnB] at hStep
      have hRemLen : ((input.drop st.off).take R).length = R := by
        simp [List.length_take, List.length_drop]
        omega
      have hPay : (input.drop st.off).take t = ((input.drop st.off).take R).take t := by
        rw [List.take_take]
        congr 1
        omega
      have hDropT : ((input.drop st.off).take R).drop t =
          (input.drop (st.off + t)).take (R - t) := by
        rw [List.drop_take, List.drop_drop]
      constructor
      · rw [dataPayloads_append, dataPayloads_append, wrDropIn_dataP]
        rw [hStep.1]
        simp only [dataPayloads, dataPktOf, ECT_FOE_DATA, if_pos rfl,
          List.nil_append, if_neg hR]
        rw [hPay]
        by_cases hmr : m < R
        · have ht : t = m := by rw [hT]; simp [hmr]
          have h1 : ¬(R - t = 0) := by omega
          rw [if_neg h1, ← hDropT, ht]
          exact (segList_cons m ((input.drop st.off).take R) hm
            (by rw [hRemLen]; omega)).symm
        · have ht : t = R := by rw [hT]; simp [hmr]
          have h0 : R - t = 0 := by omega
          rw [if_pos h0]
          have hTake : ((input.drop st.off).take R).take t =
              (input.drop st.off).take R := by
            apply List.take_of_length_le
            rw [hRemLen]
            omega
          rw [hTake]
          by_cases hRm : R = m
          · have hdz : (decide (R - t = 0 ∧ t = m)) = true := by
              simp [h0, ht, hRm]
            rw [hdz]
            rw [segList_cons m ((input.drop st.off).take R) hm
              (by rw [hRemLen]; omega)]
            have hTake2 : ((input.drop st.off).take R).take m =
                (input.drop st.off).take R := by
              apply List.take_of_length_le
              rw [hRemLen]
              omega
            have hDrop2 : ((input.drop st.off).take R).drop m = [] := by
              apply List.drop_eq_nil_of_le
              rw [hRemLen]
              omega
            rw [hTake2, hDrop2, segList_nil]
            simp
          · have hRlt : R < m := by omega
            have hdz : (decide (R - t = 0 ∧ t = m)) = false := by
              simp [ht, hRm]
            rw [hdz]
            rw [segList_small m ((input.drop st.off).take R)
              (by rw [hRemLen]; omega)]
            simp
      · exact hStep.2

theorem wrReqTrace_dataP (inp : WrIn) : dataPayloads (wrReqTrace inp) = [] := by
  cases h : inp.stale <;>
    simp [wrReqTrace, h, dataPayloads, reqPkt, ECT_FOE_WRITE, ECT_FOE_DATA]

/-- A complete `ecx_FOEwrite` transfer of `bytes` with `psize` equal to the
buffer length, driven by the slave acknowledging every packet in order
(`bytes.length / maxdata + 2` ACKs numbered from 0) with every send
succeeding. -/
def c1Run (mbx_l c pw : Nat) (fn bytes : List Nat) (stale : Bool) :
    WrCore × List TEv :=
  ecx_FOEwrite ⟨mbx_l, c, fn, pw, bytes, bytes.length, stale,
    ackScript 0 (bytes.length / (mbx_l - 12) + 1 + 1), []⟩

/-- Claim C1: in a fully acknowledged `ecx_FOEwrite` transfer the DATA
payloads handed to the transport are exactly the protocol segmentation of
the input — their concatenation is the input, the transfer ends with a DATA
payload strictly shorter than `maxdata = mbx_l - 12`, a positive exact
multiple of `maxdata` is followed by an additional zero-length DATA packet
after the full segments, a zero-byte file is signaled by exactly one
zero-length DATA packet, and the call reports success. -/
theorem C1_write_segmentation (mbx_l c pw : Nat) (fn bytes : List Nat)
    (stale : Bool) (hL : 12 < mbx_l) (hU : mbx_l ≤ 65535) :
    dataPayloads (c1Run mbx_l c pw fn bytes stale).2 =
      segList bytes (mbx_l - 12) ∧
    (dataPayloads (c1Run mbx_l c pw fn bytes stale).2).flatten = bytes ∧
    dataPayloads (c1Run mbx_l c pw fn bytes stale).2 ≠ [] ∧
    ((dataPayloads (c1Run mbx_l c pw fn bytes stale).2).getLastD []).length <
      mbx_l - 12 ∧
    (bytes.length = 0 →
      dataPayloads (c1Run mbx_l c pw fn bytes stale).2 = [[]]) ∧
    (0 < bytes.length → (mbx_l - 12) ∣ bytes.length →
      (dataPayloads (c1Run mbx_l c pw fn bytes stale).2).getLastD [] = [] ∧
      ∀ l ∈ (dataPayloads (c1Run mbx_l c pw fn bytes stale).2).dropLast,
        l.length = mbx_l - 12) ∧
    (c1Run mbx_l c pw fn bytes stale).1.wkc = 1 := by
  have hm : 0 < mbx_l - 12 := by omega
  have hmax : (mbx_l + 65524) % 65536 = mbx_l - 12 := by omega
  have hMaster := writeAck_loop bytes (mbx_l - 12) hm bytes.length
    (wrInit ⟨mbx_l, c, fn, pw, bytes, bytes.length, stale,
      ackScript 0 (bytes.length / (mbx_l - 12) + 1 + 1), []⟩)
    (by simp [wrInit]; omega) rfl rfl (by simp [wrInit])
  simp only [wrInit] at hMaster
  have hnC : nAcks (mbx_l - 12) bytes.length true =
      bytes.length / (mbx_l - 12) + 1 + 1 := by
    by_cases h : bytes.length = 0 <;> simp [nAcks, h]
  rw [hnC] at hMaster
  simp only [if_true] at hMaster
  have hSeg : (if bytes.length = 0 then ([[]] : List (List Nat))
      else segList ((bytes.drop 0).take bytes.length) (mbx_l - 12)) =
      segList bytes (mbx_l - 12) := by
    by_cases h : bytes.length = 0
    · have hb : bytes = [] := List.length_eq_zero.mp h
      subst hb
      simp [segList_nil]
    · simp [h, List.drop_zero, List.take_length]
  rw [hSeg] at hMaster
  have hMain : dataPayloads (c1Run mbx_l c pw fn bytes stale).2 =
      segList bytes (mbx_l - 12) ∧
      (c1Run mbx_l c pw fn bytes stale).1.wkc = 1 := by
    unfold c1Run
    rw [show ecx_FOEwrite ⟨mbx_l, c, fn, pw, bytes, bytes.length, stale,
        ackScript 0 (bytes.length / (mbx_l - 12) + 1 + 1), []⟩ =
      wrFinish ((writeLoop bytes
          (ackScript 0 (bytes.length / (mbx_l - 12) + 1 + 1))
          (wrInit ⟨mbx_l, c, fn, pw, bytes, bytes.length, stale,
            ackScript 0 (bytes.length / (mbx_l - 12) + 1 + 1), []⟩)).1,
        wrReqTrace ⟨mbx_l, c, fn, pw, bytes, bytes.length, stale,
          ackScript 0 (bytes.length / (mbx_l - 12) + 1 + 1), []⟩ ++
        (writeLoop bytes
          (ackScript 0 (bytes.length / (mbx_l - 12) + 1 + 1))
          (wrInit ⟨mbx_l, c, fn, pw, bytes, bytes.length, stale,
            ackScript 0 (bytes.length / (mbx_l - 12) + 1 + 1), []⟩)).2) from by
      simp [ecx_FOEwrite, nextSend]]
    simp only [wrFinish, dataPayloads_append, wrReqTrace_dataP, wrDropIn_dataP,
      wrDropIn_fst, List.nil_append, List.append_nil, wrInit]
    constructor
    · have h1 := hMaster.1
      rw [hmax] at h1 ⊢
      exact h1
    · have h2 := hMaster.2
      rw [hmax] at h2 ⊢
      exact h2
  refine ⟨hMain.1, ?_, ?_, ?_, ?_, ?_, hMain.2⟩
  · rw [hMain.1]
    exact segList_flatten (mbx_l - 12) hm bytes
  · rw [hMain.1]
    exact segList_ne_nil (mbx_l - 12) bytes
  · rw [hMain.1]
    exact segList_last_lt (mbx_l - 12) hm bytes
  · intro h0
    have hb : bytes = [] := List.length_eq_zero.mp h0
    rw [hMain.1, hb]
    exact segList_nil (mbx_l - 12)
  · intro hpos hdvd
    rw [hMain.1]
    exact segList_multiple (mbx_l - 12) bytes hm hdvd

/-- Witness for C1 at a concrete transfer: `mbx_l = 16` (so `maxdata = 4`)
and a 5-byte file, segmented as a full 4-byte DATA packet followed by the
short 1-byte EOF packet. -/
theorem C1_witness :
    ((12 : Nat) < 16 ∧ (16 : Nat) ≤ 65535) ∧
    dataPayloads (c1Run 16 0 0 [] [1, 2, 3, 4, 5] false).2 =
      segList [1, 2, 3, 4, 5] (16 - 12) ∧
    (dataPayloads (c1Run 16 0 0 [] [1, 2, 3, 4, 5] false).2).flatten =
      [1, 2, 3, 4, 5] ∧
    (c1Run 16 0 0 [] [1, 2, 3, 4, 5] false).1.wkc = 1 :=
  ⟨⟨by decide, by decide⟩,
   (C1_write_segmentation 16 0 0 [] [1, 2, 3, 4, 5] false (by decide) (by decide)).1,
   (C1_write_segmentation 16 0 0 [] [1, 2, 3, 4, 5] false (by decide) (by decide)).2.1,
   (C1_write_segmentation 16 0 0 [] [1, 2, 3, 4, 5] false (by decide) (by decide)).2.2.2.2.2.2⟩
